import Mathlib

/-!
# Rule evaluator: vector adapter, alert translation, reload coordinator, control plane,
reload actor and supervisor

A shallow embedding of `cmd/rule-evaluator/main.go`.

Conventions of the embedding.

* A Go `error` is modelled by its message (`err.Error()`); a nilable `error`
  is an `Option Error`, `none` being `nil`.
* A Go slice that the code compares with `nil`, or returns as `nil`, is an
  `Option (List _)`, `none` being the nil slice. Other slices are lists.
* Pointers to structs (`*model.Sample`, `*rules.Alert`, `*config.Config`) are
  modelled by the struct they point to: they are taken to be non-nil.
* A `float64` is carried as its IEEE-754 bit pattern; no arithmetic is done
  on it anywhere in this program.
* Library calls whose result depends on the outside world (file system,
  clock, metrics backend, subsystem managers) are fields of `Env`, acting on
  an abstract world state `σ`.
* A goroutine is modelled by what it does, in order, on the sequence of what
  it receives; goroutines that run concurrently are modelled by a step
  function each, and every sequence of steps is a possible run.
-/

namespace RuleEvaluator

/-- A Go `error`, by its message. -/
abbrev Error := String

/-- A `float64`, as its bit pattern. -/
abbrev float64 := Nat

/-- An `int64`. -/
abbrev int64 := Int

/-! ## `github.com/prometheus/common/model` -/

namespace model

/-- The result kinds of a query, `model.ValueType`. -/
inductive ValueType where
  | ValNone
  | ValScalar
  | ValVector
  | ValMatrix
  | ValString
  deriving DecidableEq, Repr

/-- The method `ValueType.String`, used by the `%v` verb. -/
def ValueType.name : ValueType → String
  | .ValNone => "<ValNone>"
  | .ValScalar => "scalar"
  | .ValVector => "vector"
  | .ValMatrix => "matrix"
  | .ValString => "string"

/-- The type `model.Metric`, a Go map from label name to label value, as its
list of entries. -/
abbrev Metric := List (String × String)

/-- The struct `model.Sample`. -/
structure Sample where
  Metric : Metric
  Value : float64
  Timestamp : int64
  deriving DecidableEq, Repr

/-- The struct `model.Scalar`. -/
structure Scalar where
  Value : float64
  Timestamp : int64
  deriving DecidableEq, Repr

/-- The struct `model.SamplePair`. -/
structure SamplePair where
  Timestamp : int64
  Value : float64
  deriving DecidableEq, Repr

/-- The struct `model.SampleStream`. -/
structure SampleStream where
  Metric : Metric
  Values : List SamplePair
  deriving DecidableEq, Repr

/-- The struct `model.String`. -/
structure StringValue where
  Value : String
  Timestamp : int64
  deriving DecidableEq, Repr

/-- The slice type `model.Vector`. -/
abbrev Vector := List Sample

/-- The interface `model.Value` with its four implementations and the nil
interface value. -/
inductive Value where
  | nil
  | scalar (s : Scalar)
  | vector (v : Vector)
  | matrix (m : List SampleStream)
  | string (s : StringValue)
  deriving DecidableEq, Repr

/-- The method `Type` of `model.Vector`: it ignores its receiver. -/
def Vector.Type (_ : Vector) : ValueType := .ValVector

/-- The method `Type` of the interface, on a non-nil value. -/
def Value.Type : Value → Option ValueType
  | .nil => none
  | .scalar _ => some .ValScalar
  | .vector v => some (Vector.Type v)
  | .matrix _ => some .ValMatrix
  | .string _ => some .ValString

end model

/-! ## `github.com/prometheus/prometheus/pkg/labels` and `promql` -/

namespace labels

/-- The struct `labels.Label`. -/
structure Label where
  Name : String
  Value : String
  deriving DecidableEq, Repr

/-- The slice type `labels.Labels`. -/
abbrev Labels := List Label

end labels

namespace promql

/-- The struct `promql.Point`. -/
structure Point where
  T : int64
  V : float64
  deriving DecidableEq, Repr

/-- The struct `promql.Sample`. -/
structure Sample where
  Point : Point
  Metric : labels.Labels
  deriving DecidableEq, Repr

/-- The zero value of `promql.Sample`, what `make` fills a slice with. -/
def Sample.zero : Sample := { Point := { T := 0, V := 0 }, Metric := [] }

/-- The slice type `promql.Vector`. -/
abbrev Vector := List Sample

end promql

/-! ## `convertValueToVector` -/

/-- The type assertion `results, ok := val.(model.Vector)`: on failure
`results` is the zero value of `model.Vector`. -/
def assertVector : model.Value → model.Vector × Bool
  | .vector v => (v, true)
  | _ => ([], false)

/-- The inner loop of `convertValueToVector`: one `append` per visited entry
of the metric, `visited` being the entries in the order `range` yields them. -/
def convertLabels (visited : List (String × String)) : labels.Labels :=
  visited.foldl (fun ls nv => ls ++ [{ Name := nv.1, Value := nv.2 }]) []

/-- The body of the outer loop of `convertValueToVector`: the `promql.Sample`
built from `result`, the `i`-th entry of the vector. `rangeOrder i m` is the
order in which `range` visits the map `m` in that iteration. -/
def convertSample (rangeOrder : Nat → model.Metric → List (String × String))
    (i : Nat) (result : model.Sample) : promql.Sample :=
  let ls := convertLabels (rangeOrder i result.Metric)
  { Point := { T := result.Timestamp, V := result.Value }, Metric := ls }

/-- The function `convertValueToVector`. The result pair is the Go result
pair `(promql.Vector, error)`. -/
def convertValueToVector (rangeOrder : Nat → model.Metric → List (String × String))
    (val : model.Value) : Option promql.Vector × Option Error :=
  let (results, ok) := assertVector val
  if !ok then
    (none, some ("Expected Prometheus results of type vector. Actual results type: "
      ++ (model.Vector.Type results).name ++ "\n"))
  else
    let v : promql.Vector := List.replicate results.length promql.Sample.zero
    let v := results.enum.foldl
      (fun v ir => v.set ir.1 (convertSample rangeOrder ir.1 ir.2)) v
    (some v, none)

/-! ## `time` -/

namespace time

/-- The struct `time.Time`: seconds since January 1 of year 1, 00:00:00 UTC,
nanoseconds within the second, and the location (`none` being UTC). -/
structure Time where
  sec : Int
  nsec : Nat
  loc : Option String
  deriving DecidableEq, Repr

/-- The method `IsZero`: `t.sec() == 0 && t.nsec() == 0`. -/
def Time.IsZero (t : Time) : Bool := t.sec == 0 && t.nsec == 0

/-- The zero value `time.Time{}`. -/
def Time.zero : Time := { sec := 0, nsec := 0, loc := none }

/-- The type `time.Duration`, in nanoseconds. -/
abbrev Duration := Int

end time

/-! ## `rules.Alert`, `notifier.Alert` and `sendAlerts` -/

namespace rules

/-- The struct `rules.Alert`. -/
structure Alert where
  State : Nat
  Labels : labels.Labels
  Annotations : labels.Labels
  Value : float64
  ActiveAt : time.Time
  FiredAt : time.Time
  ResolvedAt : time.Time
  LastSentAt : time.Time
  ValidUntil : time.Time
  deriving DecidableEq, Repr

end rules

namespace notifier

/-- The struct `notifier.Alert`. -/
structure Alert where
  Labels : labels.Labels
  Annotations : labels.Labels
  StartsAt : time.Time
  EndsAt : time.Time
  GeneratorURL : String
  deriving DecidableEq, Repr

end notifier

/-- The body of the loop of the function returned by `sendAlerts`: the
`notifier.Alert` built for `alert`. `tableLink` is
`strutil.TableLinkForExpression`. -/
def sendAlerts.translate (tableLink : String → String) (externalURL expr : String)
    (alert : rules.Alert) : notifier.Alert :=
  let a : notifier.Alert :=
    { StartsAt := alert.FiredAt
      Labels := alert.Labels
      Annotations := alert.Annotations
      GeneratorURL := externalURL ++ tableLink expr
      EndsAt := time.Time.zero }
  if !alert.ResolvedAt.IsZero then
    { a with EndsAt := alert.ResolvedAt }
  else
    { a with EndsAt := alert.ValidUntil }

/-- The function `sendAlerts`: the notify function for a notifier. `Send` is
the method `Send` of the `*notifier.Manager`, acting on the manager state
`μ`. -/
def sendAlerts {μ : Type} (Send : List notifier.Alert → μ → μ)
    (tableLink : String → String) (externalURL : String) :
    String → List rules.Alert → μ → μ :=
  fun expr alerts s =>
    let res : List notifier.Alert :=
      alerts.foldl (fun res alert => res ++ [sendAlerts.translate tableLink externalURL expr alert]) []
    if alerts.length > 0 then Send res s else s

/-- A notifier manager that only records the batches passed to `Send`. -/
def recordSend (batch : List notifier.Alert) (sent : List (List notifier.Alert)) :
    List (List notifier.Alert) :=
  sent ++ [batch]

/-! ## `config` -/

namespace discovery

/-- The type `discovery.Configs`, opaque to this program: each discovery
configuration is kept by its textual form. -/
abbrev Configs := List String

end discovery

namespace config

/-- The struct `config.GlobalConfig`, the fields this program reads. -/
structure GlobalConfig where
  EvaluationInterval : int64
  ExternalLabels : labels.Labels
  deriving DecidableEq, Repr

/-- The struct `config.AlertmanagerConfig`, the field this program reads. -/
structure AlertmanagerConfig where
  ServiceDiscoveryConfigs : discovery.Configs
  deriving DecidableEq, Repr

/-- The struct `config.AlertingConfig`. -/
structure AlertingConfig where
  AlertmanagerConfigs : List AlertmanagerConfig
  deriving DecidableEq, Repr

/-- The struct `config.Config`, the fields this program reads. -/
structure Config where
  GlobalConfig : GlobalConfig
  AlertingConfig : AlertingConfig
  RuleFiles : List String
  deriving DecidableEq, Repr

/-- The method `AlertmanagerConfigs.ToMap`: entry `i` under the key
`config-i`. A Go map is kept as its list of entries. -/
def ToMap (c : List AlertmanagerConfig) : List (String × AlertmanagerConfig) :=
  c.enum.map (fun ic => ("config-" ++ toString ic.1, ic.2))

end config

/-! ## Logging, events and the environment -/

/-- A value passed to a logger. -/
inductive LogValue where
  | str (s : String)
  | err (e : Error)
  | dur (d : time.Duration)
  | warnings (ws : List String)
  deriving DecidableEq, Repr

/-- What the program does that can be observed from outside, in order.
* `log level keyvals`: one `Log` call on the logger at that level;
* `reload name conf result`: one call `rl.reloader(conf)` of the reloader
  named `name`, and what it returned;
* `enqueue`: one send of a fresh response channel on `reloadCh`. -/
inductive Event where
  | log (level : String) (keyvals : List LogValue)
  | reload (name : String) (conf : config.Config) (result : Option Error)
  | enqueue
  deriving DecidableEq, Repr

/-- The calls of reloaders in a trace: name, configuration passed, result. -/
def reloadCalls : List Event → List (String × config.Config × Option Error)
  | [] => []
  | .reload name conf result :: es => (name, conf, result) :: reloadCalls es
  | _ :: es => reloadCalls es

/-- The number of sends on `reloadCh` in a trace. -/
def enqueueCount : List Event → Nat
  | [] => 0
  | .enqueue :: es => enqueueCount es + 1
  | _ :: es => enqueueCount es

/-- The library calls of the program that depend on the world outside it, on
a world state `σ`.
* `now`, `since`: `time.Now` and `time.Since`;
* `quote`: the `%q` verb on a string;
* `LoadFile`: `config.LoadFile`;
* `Glob`: `filepath.Glob`; its first result is `none` for a nil slice, which
  is what `Glob` returns when there is no matching file;
* `rangeOrder`: the order in which `range` visits a map;
* `Query`: the method `Query` of the `v1.API` client;
* `notificationManagerApplyConfig`, `discoveryManagerApplyConfig`,
  `ruleManagerUpdate`: `notificationManager.ApplyConfig`,
  `discoveryManager.ApplyConfig` and `ruleManager.Update`. -/
structure Env (σ : Type) where
  now : σ → time.Time
  since : time.Time → σ → time.Duration
  quote : String → String
  LoadFile : String → σ → Except Error config.Config
  Glob : String → σ → Option (List String) × Option Error
  rangeOrder : Nat → model.Metric → List (String × String)
  Query : String → time.Time → σ → (model.Value × List String × Option Error) × σ
  notificationManagerApplyConfig : config.Config → σ → Option Error × σ
  discoveryManagerApplyConfig : List (String × discovery.Configs) → σ → Option Error × σ
  ruleManagerUpdate : time.Duration → List String → labels.Labels → σ → Option Error × σ

/-! ## `QueryFunc` -/

/-- The function `QueryFunc`. The result is the Go result triple and the
world after the backend query. -/
def QueryFunc {σ : Type} (env : Env σ) (q : String) (_t : time.Time) (w : σ) :
    (Option promql.Vector × List String × Option Error) × σ :=
  let ((results, warnings, err), w1) := env.Query q (env.now w) w
  match err with
  | some e => ((none, warnings, some ("Error querying Prometheus: " ++ e ++ "\n")), w1)
  | none =>
    let (v, err) := convertValueToVector env.rangeOrder results
    ((v, warnings, err), w1)

/-- The closure `queryFunc` of `main`. -/
def queryFunc {σ : Type} (env : Env σ) (q : String) (t : time.Time) (w : σ) :
    (Option promql.Vector × Option Error) × σ × List Event :=
  let ((v, warnings, err), w1) := QueryFunc env q t w
  let tr : List Event :=
    if warnings.length > 0 then
      [.log "warn" [.str "msg", .str "Querying Promethues instance returned warnings",
        .str "warn", .warnings warnings]]
    else []
  ((v, err), w1, tr)

/-! ## `reloadConfig` -/

set_option linter.dupNamespace false in
/-- The struct `reloader`. -/
structure reloader (σ : Type) where
  name : String
  reloader : config.Config → σ → Option Error × σ

/-- The variables the loop of `reloadConfig` carries, with the world and the
trace. -/
structure reloadConfig.Loop (σ : Type) where
  failed : Bool
  timings : List LogValue
  world : σ
  trace : List Event

/-- One iteration of the loop of `reloadConfig`. -/
def reloadConfig.step {σ : Type} (env : Env σ) (conf : config.Config)
    (st : reloadConfig.Loop σ) (rl : reloader σ) : reloadConfig.Loop σ :=
  let rstart := env.now st.world
  let (r, w1) := rl.reloader conf st.world
  let tr := st.trace ++ [Event.reload rl.name conf r]
  let (failed, tr) :=
    match r with
    | some err =>
      (true, tr ++ [Event.log "error" [.str "msg", .str "Failed to apply configuration",
        .str "err", .err err]])
    | none => (st.failed, tr)
  { failed := failed
    timings := st.timings ++ [.str rl.name, .dur (env.since rstart w1)]
    world := w1
    trace := tr }

/-- The function `reloadConfig`: the error returned, the world afterwards and
the trace of what it did. -/
def reloadConfig {σ : Type} (env : Env σ) (filename : String) (rls : List (reloader σ))
    (w : σ) : Option Error × σ × List Event :=
  let start := env.now w
  let timings : List LogValue := []
  let tr : List Event :=
    [.log "info" [.str "msg", .str "Loading configuration file", .str "filename", .str filename]]
  match env.LoadFile filename w with
  | .error err =>
    (some ("couldn't load configuration (--config.file=" ++ env.quote filename ++ "): " ++ err),
      w, tr)
  | .ok conf =>
    let st := rls.foldl (reloadConfig.step env conf)
      { failed := false, timings := timings, world := w, trace := tr }
    if st.failed then
      (some ("one or more errors occurred while applying the new configuration (--config.file="
        ++ env.quote filename ++ ")"), st.world, st.trace)
    else
      let l : List LogValue :=
        [.str "msg", .str "Completed loading of configuration file", .str "filename",
          .str filename, .str "totalDuration", .dur (env.since start st.world)]
      (none, st.world, st.trace ++ [.log "info" (l ++ st.timings)])

/-! ## The reloaders of `main` -/

/-- The assignment `c[k] = v` on a Go map kept as its list of entries. -/
def mapSet {β : Type} (c : List (String × β)) (k : String) (v : β) : List (String × β) :=
  if c.any (fun kv => kv.1 == k) then
    c.map (fun kv => if kv.1 == k then (k, v) else kv)
  else
    c ++ [(k, v)]

/-- The reloader `notify_sd` of `main`. The keys of `ToMap` are distinct, so
the map `c` it builds does not depend on the order of the `range`. -/
def reloaders.notifySD {σ : Type} (env : Env σ) (cfg : config.Config) (w : σ) :
    Option Error × σ :=
  let c : List (String × discovery.Configs) :=
    (config.ToMap cfg.AlertingConfig.AlertmanagerConfigs).foldl
      (fun c kv => mapSet c kv.1 kv.2.ServiceDiscoveryConfigs) []
  env.discoveryManagerApplyConfig c w

/-- The loop of the reloader `rules` of `main`, over the patterns left to
resolve: the files collected, or the error the loop returns with. -/
def reloaders.globAll {σ : Type} (env : Env σ) (w : σ) :
    List String → List String → Except Error (List String)
  | [], files => .ok files
  | pat :: pats, files =>
    let (fs, err) := env.Glob pat w
    if fs.isNone || err.isSome then
      .error ("Error retrieving rule file: " ++ pat)
    else
      reloaders.globAll env w pats (files ++ fs.getD [])

/-- The reloader `rules` of `main`. -/
def reloaders.rules {σ : Type} (env : Env σ) (cfg : config.Config) (w : σ) :
    Option Error × σ :=
  match reloaders.globAll env w cfg.RuleFiles [] with
  | .error e => (some e, w)
  | .ok files =>
    env.ruleManagerUpdate cfg.GlobalConfig.EvaluationInterval files
      cfg.GlobalConfig.ExternalLabels w

/-- The slice `reloaders` of `main`. -/
def reloaders {σ : Type} (env : Env σ) : List (reloader σ) :=
  [ { name := "notify", reloader := env.notificationManagerApplyConfig },
    { name := "notify_sd", reloader := reloaders.notifySD env },
    { name := "rules", reloader := reloaders.rules env } ]

/-! ## `net/http` -/

namespace http

/-- What a handler has written on its `http.ResponseWriter`: the header map,
the status code of the first `WriteHeader` (`none` before it) and the body. -/
structure ResponseWriter where
  header : List (String × String)
  status : Option Nat
  body : String
  deriving DecidableEq, Repr

/-- The response writer a handler is called with. -/
def ResponseWriter.fresh : ResponseWriter := { header := [], status := none, body := "" }

/-- The method `Header().Set`. -/
def ResponseWriter.SetHeader (w : ResponseWriter) (k v : String) : ResponseWriter :=
  { w with header := mapSet w.header k v }

/-- The method `WriteHeader`: only the first call sets the status code. -/
def ResponseWriter.WriteHeader (w : ResponseWriter) (code : Nat) : ResponseWriter :=
  match w.status with
  | some _ => w
  | none => { w with status := some code }

/-- The method `Write`: it sends the status 200 first when no status was sent. -/
def ResponseWriter.Write (w : ResponseWriter) (s : String) : ResponseWriter :=
  let w := w.WriteHeader 200
  { w with body := w.body ++ s }

/-- The function `http.Error`. -/
def Error (w : ResponseWriter) (error : String) (code : Nat) : ResponseWriter :=
  let w := w.SetHeader "Content-Type" "text/plain; charset=utf-8"
  let w := w.SetHeader "X-Content-Type-Options" "nosniff"
  let w := w.WriteHeader code
  w.Write (error ++ "\n")

/-- The status code the server sends once the handler has returned: 200 when
the handler never called `WriteHeader`. -/
def ResponseWriter.statusCode (w : ResponseWriter) : Nat := w.status.getD 200

def StatusOK : Nat := 200
def StatusMethodNotAllowed : Nat := 405
def StatusInternalServerError : Nat := 500
def StatusServiceUnavailable : Nat := 503

end http

/-! ## The handlers of `main` -/

/-- A handler that talks to the reload actor, as the sequence of its channel
operations:
* `ret w`: the handler returns, having written `w`;
* `sendReloadCh k`: `rc := make(chan error); reloadCh <- rc`, then `k`;
* `recvRc k`: `err := <-rc`, then `k err`. -/
inductive HandlerProc where
  | ret (w : http.ResponseWriter)
  | sendReloadCh (k : HandlerProc)
  | recvRc (k : Option Error → HandlerProc)

/-- The handler of the reload endpoint, called with the request method `method` and
the response writer `w`. -/
def reloadHandler (w : http.ResponseWriter) (method : String) : HandlerProc :=
  if method == "POST" then
    .sendReloadCh (.recvRc (fun err =>
      match err with
      | some e =>
        .ret (http.Error w ("Failed to reload config: " ++ e) http.StatusInternalServerError)
      | none => .ret w))
  else
    .ret (http.Error w "Only POST requests allowed." http.StatusMethodNotAllowed)

/-- The branch `case rc := <-reloadCh` of the reload actor: the value it
sends on `rc`, the world afterwards and the trace. -/
def reloadActor.onRequest {σ : Type} (env : Env σ) (configFile : String)
    (rls : List (reloader σ)) (w : σ) : Option Error × σ × List Event :=
  match reloadConfig env configFile rls w with
  | (some err, w1, tr) =>
    (some err, w1, tr ++ [.log "error" [.str "msg", .str "Error reloading config",
      .str "err", .err err]])
  | (none, w1, tr) => (none, w1, tr)

/-- What serving one request gave: the response written, the world and the
trace. -/
structure Served (σ : Type) where
  response : http.ResponseWriter
  world : σ
  trace : List Event

/-- A handler run against the reload actor, the actor waiting in its `select`.
A send on `reloadCh` is received by the actor, which runs its branch and then
offers the result on `rc`; `pending` is that offered result, `none` when
nothing is offered. A receive on `rc` with nothing offered blocks for ever:
the run is `none`. -/
def HandlerProc.run {σ : Type} (serve : σ → Option Error × σ × List Event) :
    HandlerProc → Option (Option Error) → σ → List Event → Option (Served σ)
  | .ret rw, _, w, tr => some { response := rw, world := w, trace := tr }
  | .sendReloadCh k, _, w, tr =>
    let (reply, w1, tr1) := serve w
    HandlerProc.run serve k (some reply) w1 (tr ++ [Event.enqueue] ++ tr1)
  | .recvRc k, some reply, w, tr => HandlerProc.run serve (k reply) none w tr
  | .recvRc _, none, _, _ => none

/-- One request to the reload endpoint served while the reload actor waits in its
`select`. -/
def serveReload {σ : Type} (env : Env σ) (configFile : String) (rls : List (reloader σ))
    (method : String) (w : σ) : Option (Served σ) :=
  (reloadHandler http.ResponseWriter.fresh method).run
    (reloadActor.onRequest env configFile rls) none w []

/-- The handler of the readiness endpoint. -/
def readyHandler {σ : Type} (env : Env σ) (rw : http.ResponseWriter) (w : σ) : Served σ :=
  let ((_, err), w1, tr) := queryFunc env "vector(1)" (env.now w) w
  match err with
  | some e =>
    let rw := rw.WriteHeader http.StatusServiceUnavailable
    let rw := rw.Write "Prometheus is not Ready.\n"
    { response := rw, world := w1,
      trace := tr ++ [.log "error" [.str "msg", .str "Error querying Prometheus instance",
        .str "err", .err e]] }
  | none =>
    let rw := rw.WriteHeader http.StatusOK
    let rw := rw.Write "Prometheus is Ready.\n"
    { response := rw, world := w1, trace := tr }

/-- One request to the readiness endpoint served. -/
def serveReady {σ : Type} (env : Env σ) (w : σ) : Served σ :=
  readyHandler env http.ResponseWriter.fresh w

/-- The reloader calls of a run of the loop of `reloadConfig` from the world
`w`: name, configuration and result of each, the world threaded through. -/
def loopCalls {σ : Type} (conf : config.Config) :
    List (reloader σ) → σ → List (String × config.Config × Option Error)
  | [], _ => []
  | rl :: rls, w =>
    (rl.name, conf, (rl.reloader conf w).1) :: loopCalls conf rls (rl.reloader conf w).2

/-! ## The reload actor of `main` -/

/-- What the `select` of the reload actor receives: a signal on `hup`, a
response channel on `reloadCh` (response channels are told apart by a
number), or a value on `cancel`. -/
inductive Received where
  | hup
  | request (rc : Nat)
  | cancel
  deriving DecidableEq, Repr

/-- What the reload actor does, in order.
* `received m`: its `select` receives `m`;
* `reloadBegin`, `reloadEnd err`: it calls `reloadConfig`, and `reloadConfig`
  returns `err`;
* `did e`: `reloadConfig`, or the logger of the actor, does `e`;
* `reply rc err`: the send `rc <- err`;
* `returned`: its run function returns nil. -/
inductive ActorEvent where
  | received (m : Received)
  | reloadBegin
  | did (e : Event)
  | reloadEnd (err : Option Error)
  | reply (rc : Nat) (err : Option Error)
  | returned
  deriving DecidableEq, Repr

/-- The call `reloadConfig(cfg.configFile, logger, reloaders...)` of the
reload actor, its begin and its end marked in the trace. -/
def reloadActor.call {σ : Type} (env : Env σ) (configFile : String)
    (rls : List (reloader σ)) (w : σ) : Option Error × σ × List ActorEvent :=
  let (err, w1, tr) := reloadConfig env configFile rls w
  (err, w1, [ActorEvent.reloadBegin] ++ tr.map ActorEvent.did ++ [ActorEvent.reloadEnd err])

/-- The branch `case <-hup` of the reload actor. -/
def reloadActor.onHup {σ : Type} (env : Env σ) (configFile : String)
    (rls : List (reloader σ)) (w : σ) : σ × List ActorEvent :=
  match reloadActor.call env configFile rls w with
  | (some err, w1, tr) =>
    (w1, tr ++ [.did (.log "error" [.str "msg", .str "Error reloading config",
      .str "err", .err err])])
  | (none, w1, tr) => (w1, tr)

/-- The branch `case rc := <-reloadCh` of the reload actor, the send on `rc`
included. -/
def reloadActor.onReloadCh {σ : Type} (env : Env σ) (configFile : String)
    (rls : List (reloader σ)) (rc : Nat) (w : σ) : σ × List ActorEvent :=
  match reloadActor.call env configFile rls w with
  | (some err, w1, tr) =>
    (w1, tr ++ [.did (.log "error" [.str "msg", .str "Error reloading config",
      .str "err", .err err]), .reply rc (some err)])
  | (none, w1, tr) => (w1, tr ++ [.reply rc none])

/-- What a run of the reload actor gave: the world, the trace, and whether
the run function has returned (it waits in its `select` otherwise). -/
structure reloadActor.Run (σ : Type) where
  world : σ
  trace : List ActorEvent
  returned : Bool

/-- The run function of the reload actor, on the sequence `ms` of what its
`select` receives, in the order of receipt. -/
def reloadActor.run {σ : Type} (env : Env σ) (configFile : String)
    (rls : List (reloader σ)) : List Received → σ → reloadActor.Run σ
  | [], w => { world := w, trace := [], returned := false }
  | .hup :: ms, w =>
    let (w1, tr) := reloadActor.onHup env configFile rls w
    let r := reloadActor.run env configFile rls ms w1
    { r with trace := [ActorEvent.received .hup] ++ tr ++ r.trace }
  | .request rc :: ms, w =>
    let (w1, tr) := reloadActor.onReloadCh env configFile rls rc w
    let r := reloadActor.run env configFile rls ms w1
    { r with trace := [ActorEvent.received (.request rc)] ++ tr ++ r.trace }
  | .cancel :: _, w =>
    { world := w, trace := [.received .cancel, .returned], returned := true }

/-- Where the reload actor stands, for the rule that it handles one event at
a time: waiting in its `select`; having received `m`; running `reloadConfig`
for `m`; owing the result `err` to the response channel `rc`; returned. -/
inductive ListenerPhase where
  | idle
  | got (m : Received)
  | reloading (m : Received)
  | owes (rc : Nat) (err : Option Error)
  | stopped
  deriving DecidableEq, Repr

/-- Follows the spec's words: each received event is handled to completion,
with one call of `reloadConfig` and, for a request, one reply on its
response channel carrying the result of that call, before the next event is
received; reloaders are called only inside a call of `reloadConfig`. The
phase after the event `e`, or `none` when `e` breaks the rule. -/
def ListenerPhase.next : ListenerPhase → ActorEvent → Option ListenerPhase
  | .idle, .received m => some (.got m)
  | .idle, .did (.log _ _) => some .idle
  | .got .cancel, .returned => some .stopped
  | .got .hup, .reloadBegin => some (.reloading .hup)
  | .got (.request rc), .reloadBegin => some (.reloading (.request rc))
  | .reloading m, .did _ => some (.reloading m)
  | .reloading .hup, .reloadEnd _ => some .idle
  | .reloading (.request rc), .reloadEnd err => some (.owes rc err)
  | .owes rc err, .did (.log _ _) => some (.owes rc err)
  | .owes rc err, .reply rc1 err1 => if rc1 = rc ∧ err1 = err then some .idle else none
  | _, _ => none

/-- The phase after a whole trace, or `none` when the trace breaks the rule
of `ListenerPhase.next`. -/
def ListenerPhase.scan : ListenerPhase → List ActorEvent → Option ListenerPhase
  | ph, [] => some ph
  | ph, e :: es =>
    match ph.next e with
    | some ph1 => ph1.scan es
    | none => none

/-- The replies in a trace: response channel and value sent. -/
def replies : List ActorEvent → List (Nat × Option Error)
  | [] => []
  | .reply rc err :: es => (rc, err) :: replies es
  | _ :: es => replies es

/-- The results of the calls of `reloadConfig` in a trace. -/
def reloadResults : List ActorEvent → List (Option Error)
  | [] => []
  | .reloadEnd err :: es => err :: reloadResults es
  | _ :: es => reloadResults es

/-- The receipts in a trace. -/
def receipts : List ActorEvent → List Received
  | [] => []
  | .received m :: es => m :: receipts es
  | _ :: es => receipts es

/-- The events the reload actor takes out of what it can receive: those up to
the first `cancel`, that one included. -/
def consumed : List Received → List Received
  | [] => []
  | .cancel :: _ => [.cancel]
  | m :: ms => m :: consumed ms

/-- What `reloadConfig` and the logger of the actor did, in a trace. -/
def didEvents : List ActorEvent → List Event
  | [] => []
  | .did e :: es => e :: didEvents es
  | _ :: es => didEvents es

/-- The world after `k` calls of `reloadConfig` one after the other. -/
def reloadActor.worldAfter {σ : Type} (env : Env σ) (configFile : String)
    (rls : List (reloader σ)) : Nat → σ → σ
  | 0, w => w
  | k + 1, w => reloadActor.worldAfter env configFile rls k (reloadConfig env configFile rls w).2.1

/-- The events the reload actor handles out of what it receives: those before
the first `cancel`. -/
def handled : List Received → List Received
  | [] => []
  | .cancel :: _ => []
  | m :: ms => m :: handled ms

/-- The response channels among received events. -/
def requestChannels : List Received → List Nat
  | [] => []
  | .request rc :: ms => rc :: requestChannels ms
  | _ :: ms => requestChannels ms

/-! ## The supervisor `run.Group` -/

namespace run

/-- Modelled from the spec: the supervisor is the type `run.Group` of the
package `github.com/oklog/run`, which is not among the sources; only its
callers `g.Add` and `g.Run` in `main` are. This is where the run function of
one supervised actor stands: still running; returned with `err`, the result
not yet handed to the supervisor; result handed to the single coordination
point of the supervisor. -/
inductive Status where
  | running
  | returned (err : Option Error)
  | reported (err : Option Error)
  deriving DecidableEq, Repr

/-- Modelled from the spec: where the method `Run` of the supervisor
`run.Group` (not among the sources) stands. It starts all run functions,
waits for the first actor to return, calls `interrupt` with the result of
that actor, then blocks until all run functions have returned, and returns
the result of the first.
* `start`: no run function started yet;
* `empty`: there is no actor and `Run` has returned nil;
* `waitFirst`: all started, waiting for the first result;
* `interrupting first err k`: the result `err` of actor `first` was the first
  at the coordination point, and the actors before `k` have been dealt with;
* `draining first err i`: the interrupts are done, `i` results taken;
* `done first err`: `Run` has returned `err`. -/
inductive Phase where
  | start
  | empty
  | waitFirst
  | interrupting (first : Nat) (err : Option Error) (k : Nat)
  | draining (first : Nat) (err : Option Error) (i : Nat)
  | done (first : Nat) (err : Option Error)
  deriving DecidableEq, Repr

/-- Modelled from the spec: the state of a supervisor `run.Group` (not among
the sources) and its actors, in registration order: where each run function
stands, the arguments of the `interrupt` calls each actor has received, the
results waiting at the coordination point with the actor each comes from,
first in first out, and the phase of `Run`. -/
structure State where
  statuses : List Status
  interrupts : List (List (Option Error))
  errors : List (Nat × Option Error)
  phase : Phase
  deriving DecidableEq, Repr

/-- Modelled from the spec: a supervisor `run.Group` (not among the sources)
of `n` actors on which `Run` is about to be called. -/
def State.init (n : Nat) : State :=
  { statuses := List.replicate n .running
    interrupts := List.replicate n []
    errors := []
    phase := .start }

/-- Modelled from the spec: the run function of actor `i` of a `run.Group`
(not among the sources) returns `err`. It can do so at any time once
started, interrupted or not. -/
def State.actorReturns (i : Nat) (err : Option Error) (s : State) : Option State :=
  match s.phase with
  | .start => none
  | _ =>
    match s.statuses[i]? with
    | some .running => some { s with statuses := s.statuses.set i (.returned err) }
    | _ => none

/-- Modelled from the spec: actor `i` of a `run.Group` (not among the
sources) hands the result of its run function to the coordination point,
which has room for one result of each actor. -/
def State.actorReports (i : Nat) (s : State) : Option State :=
  match s.statuses[i]? with
  | some (.returned err) =>
    if s.errors.length < s.statuses.length then
      some { s with
        statuses := s.statuses.set i (.reported err)
        errors := s.errors ++ [(i, err)] }
    else none
  | _ => none

/-- Modelled from the spec: one step of the method `Run` of a `run.Group`
(not among the sources), `none` when `Run` is blocked or has returned. With no
actor `Run` returns nil at once. The actors are interrupted in registration
order, each with the result of the first actor to return. The spec asks an
interrupt of every other actor; `run.Group` interrupts the first actor as
well: `interruptAll` tells which of the two is done. -/
def State.supervisor (interruptAll : Bool) (s : State) : Option State :=
  match s.phase with
  | .start =>
    if s.statuses.length = 0 then some { s with phase := .empty }
    else some { s with phase := .waitFirst }
  | .empty => none
  | .waitFirst =>
    match s.errors with
    | [] => none
    | (first, err) :: rest => some { s with errors := rest, phase := .interrupting first err 0 }
  | .interrupting first err k =>
    if k < s.statuses.length then
      if k = first ∧ interruptAll = false then
        some { s with phase := .interrupting first err (k + 1) }
      else
        some { s with
          interrupts := s.interrupts.set k (s.interrupts.getD k [] ++ [err])
          phase := .interrupting first err (k + 1) }
    else some { s with phase := .draining first err 1 }
  | .draining first err i =>
    if i < s.statuses.length then
      match s.errors with
      | [] => none
      | _ :: rest => some { s with errors := rest, phase := .draining first err (i + 1) }
    else some { s with phase := .done first err }
  | .done _ _ => none

/-- Modelled from the spec: a step of a `run.Group` (not among the sources)
and its actors, which run concurrently: a run function returns, an actor
hands over its result, or `Run` takes a step. -/
inductive Move where
  | returns (i : Nat) (err : Option Error)
  | reports (i : Nat)
  | supervisor
  deriving DecidableEq, Repr

/-- Modelled from the spec: the state of a `run.Group` (not among the
sources) after the move `m`, `none` when the move is not possible. -/
def State.step (interruptAll : Bool) (s : State) : Move → Option State
  | .returns i err => s.actorReturns i err
  | .reports i => s.actorReports i
  | .supervisor => s.supervisor interruptAll

/-- Modelled from the spec: the state of a `run.Group` (not among the
sources) after the moves `ms` in that order, `none` when one of them is not
possible. Every interleaving of the actors and `Run` is such a sequence. -/
def State.exec (interruptAll : Bool) (s : State) : List Move → Option State
  | [] => some s
  | m :: ms =>
    match s.step interruptAll m with
    | some s1 => s1.exec interruptAll ms
    | none => none

/-- The number of results `Run` has taken in a phase, with `n` actors. -/
def Phase.taken (n : Nat) : Phase → Nat
  | .start => 0
  | .empty => 0
  | .waitFirst => 0
  | .interrupting _ _ _ => 1
  | .draining _ _ i => i
  | .done _ _ => n

/-- The `interrupt` calls actor `j` has received when `Run` is in a phase. -/
def Phase.interruptsOf (interruptAll : Bool) (j : Nat) : Phase → List (Option Error)
  | .start => []
  | .empty => []
  | .waitFirst => []
  | .interrupting first err k =>
    if j < k ∧ ¬ (j = first ∧ interruptAll = false) then [err] else []
  | .draining first err _ => if j = first ∧ interruptAll = false then [] else [err]
  | .done first err => if j = first ∧ interruptAll = false then [] else [err]

/-- The bounds on the counters of a phase, with `n` actors. -/
def Phase.inBounds (n : Nat) : Phase → Prop
  | .start => True
  | .empty => n = 0
  | .waitFirst => 0 < n
  | .interrupting _ _ k => k ≤ n ∧ 0 < n
  | .draining _ _ i => 1 ≤ i ∧ i ≤ n
  | .done _ _ => True

/-- Whether the result of a run function has been handed over. -/
def Status.isReported : Status → Bool
  | .reported _ => true
  | _ => false

/-- The actor whose result `Run` took first, and that result. -/
def Phase.first : Phase → Option (Nat × Option Error)
  | .interrupting first err _ => some (first, err)
  | .draining first err _ => some (first, err)
  | .done first err => some (first, err)
  | _ => none

/-- Every result at the coordination point, and the one `Run` took first, is
the result of the run function of the actor it is marked with. -/
def Tagged (s : State) : Prop :=
  ∀ p : Nat × Option Error, (p ∈ s.errors ∨ s.phase.first = some p) →
    s.statuses[p.1]? = some (.reported p.2)

/-- What holds in every state a `run.Group` of `n` actors reaches. -/
structure Inv (interruptAll : Bool) (n : Nat) (s : State) : Prop where
  statuses_length : s.statuses.length = n
  interrupts_length : s.interrupts.length = n
  count : s.statuses.countP Status.isReported = s.phase.taken n + s.errors.length
  interrupts : ∀ j, j < n → s.interrupts[j]? = some (s.phase.interruptsOf interruptAll j)
  bounds : s.phase.inBounds n

end run

/-! ## An example environment -/

/-- A small world: how many backend queries were made, and which subsystems
took a configuration, by name. -/
structure ExampleWorld where
  queries : Nat
  applied : List String
  deriving DecidableEq, Repr

/-- A configuration with one rule-file pattern that matches and one that
matches nothing. -/
def exampleConfig : config.Config :=
  { GlobalConfig := { EvaluationInterval := 60000000000, ExternalLabels := [] }
    AlertingConfig := { AlertmanagerConfigs := [{ ServiceDiscoveryConfigs := ["static"] }] }
    RuleFiles := ["rules/*.yml", "missing/*.yml"] }

/-- An environment over `ExampleWorld`: the file `prometheus.yml` loads as
`exampleConfig`, no other file loads; the pattern `rules/*.yml` matches one
file, no other pattern matches; the first backend query fails and the later
ones return a one-sample vector; every manager accepts every configuration. -/
def exampleEnv : Env ExampleWorld :=
  { now := fun w => { sec := 63000000000 + w.queries, nsec := 0, loc := none }
    since := fun _ _ => 1
    quote := fun s => "\"" ++ s ++ "\""
    LoadFile := fun f _ =>
      if f = "prometheus.yml" then .ok exampleConfig
      else .error ("open " ++ f ++ ": no such file or directory")
    Glob := fun pat _ => if pat = "rules/*.yml" then (some ["rules/a.yml"], none) else (none, none)
    rangeOrder := fun _ m => m.reverse
    Query := fun _ _ w =>
      if w.queries = 0 then
        ((.nil, [], some "connection refused"), { w with queries := w.queries + 1 })
      else
        ((.vector [{ Metric := [], Value := 1, Timestamp := 0 }], [], none),
          { w with queries := w.queries + 1 })
    notificationManagerApplyConfig := fun _ w => (none, { w with applied := w.applied ++ ["notify"] })
    discoveryManagerApplyConfig := fun _ w =>
      (none, { w with applied := w.applied ++ ["notify_sd"] })
    ruleManagerUpdate := fun _ _ _ w => (none, { w with applied := w.applied ++ ["rules"] }) }

/-- Three reloaders over `ExampleWorld`, the second of which fails. -/
def exampleReloaders : List (reloader ExampleWorld) :=
  [ { name := "a", reloader := fun _ w => (none, { w with applied := w.applied ++ ["a"] }) },
    { name := "b", reloader := fun _ w => (some "b: bad", { w with applied := w.applied ++ ["b"] }) },
    { name := "c", reloader := fun _ w => (none, { w with applied := w.applied ++ ["c"] }) } ]

/-! # Theorems -/

/-! ## `convertValueToVector` -/

theorem foldl_append_singleton {α β : Type} (g : α → β) (l : List α) (acc : List β) :
    l.foldl (fun ls x => ls ++ [g x]) acc = acc ++ l.map g := by
  induction l generalizing acc with
  | nil => simp
  | cons x xs ih => simp [ih]

theorem convertLabels_eq_map (visited : List (String × String)) :
    convertLabels visited = visited.map (fun nv => { Name := nv.1, Value := nv.2 }) := by
  unfold convertLabels
  rw [foldl_append_singleton (fun nv : String × String => ({ Name := nv.1, Value := nv.2 } : labels.Label))]
  simp

theorem take_succ_set {β : Type} (v : List β) (k : Nat) (a : β) (h : k < v.length) :
    (v.set k a).take (k + 1) = v.take k ++ [a] := by
  induction v generalizing k with
  | nil => simp at h
  | cons x xs ih =>
    cases k with
    | zero => simp
    | succ k =>
      simp only [List.length_cons, Nat.add_lt_add_iff_right] at h
      simp [List.set, ih k h]

theorem foldl_set_enumFrom {α β : Type} (f : Nat → α → β) (xs : List α) (k : Nat)
    (v : List β) (h : v.length = k + xs.length) :
    (xs.enumFrom k).foldl (fun v ir => v.set ir.1 (f ir.1 ir.2)) v
      = v.take k ++ (xs.enumFrom k).map (fun ir => f ir.1 ir.2) := by
  induction xs generalizing k v with
  | nil =>
    simp only [List.length_nil, Nat.add_zero] at h
    simp [← h]
  | cons x xs ih =>
    simp only [List.enumFrom_cons, List.foldl_cons, List.map_cons]
    have hk : k < v.length := by simp [h]
    rw [ih (k + 1) (v.set k (f k x)) (by simp [h]; omega), take_succ_set v k _ hk]
    simp

theorem convertValueToVector_vector_eq
    (rangeOrder : Nat → model.Metric → List (String × String)) (results : model.Vector) :
    convertValueToVector rangeOrder (.vector results)
      = (some (results.enum.map (fun ir => convertSample rangeOrder ir.1 ir.2)), none) := by
  simp only [convertValueToVector, assertVector, List.enum]
  rw [foldl_set_enumFrom (convertSample rangeOrder) results 0 _ (by simp)]
  simp

theorem convertValueToVector_not_vector
    (rangeOrder : Nat → model.Metric → List (String × String)) (val : model.Value)
    (h : ∀ v, val ≠ .vector v) :
    convertValueToVector rangeOrder val
      = (none, some "Expected Prometheus results of type vector. Actual results type: vector\n") := by
  cases val with
  | vector v => exact absurd rfl (h v)
  | nil => rfl
  | scalar s => rfl
  | matrix m => rfl
  | string s => rfl

/-- C4: on a vector-shaped result with N samples `convertValueToVector`
succeeds and returns N samples in the same order; the i-th output sample has
the timestamp and value of the i-th input sample, and its label list holds
exactly the (name, value) entries of that sample's metric, each once,
whatever the order in which `range` visits the map. -/
theorem convertValueToVector_vector
    (rangeOrder : Nat → model.Metric → List (String × String))
    (hrange : ∀ i m, (rangeOrder i m).Perm m) (results : model.Vector) :
    ∃ v : promql.Vector,
      convertValueToVector rangeOrder (.vector results) = (some v, none) ∧
      v.length = results.length ∧
      ∀ (i : Nat) (s : model.Sample), results[i]? = some s →
        ∃ o : promql.Sample, v[i]? = some o ∧ o.Point.T = s.Timestamp ∧ o.Point.V = s.Value ∧
          (o.Metric.map (fun l => (l.Name, l.Value))).Perm s.Metric := by
  refine ⟨_, convertValueToVector_vector_eq rangeOrder results, by simp, ?_⟩
  intro i s hs
  refine ⟨convertSample rangeOrder i s, ?_, rfl, rfl, ?_⟩
  · simp [List.enum, List.getElem?_enumFrom, hs]
  · simp only [convertSample, convertLabels_eq_map, List.map_map]
    have : ((fun l : labels.Label => (l.Name, l.Value)) ∘
        fun nv : String × String => ({ Name := nv.1, Value := nv.2 } : labels.Label)) = id := by
      funext nv; rfl
    rw [this, List.map_id]
    exact hrange i s.Metric

/-- A vector of two samples, the map entries visited in reverse, converts to
two samples. -/
theorem convertValueToVector_vector_witness :
    ∃ v : promql.Vector,
      convertValueToVector (fun _ m => m.reverse)
        (.vector [{ Metric := [("job", "a"), ("instance", "b")], Value := 7, Timestamp := 1000 },
          { Metric := [], Value := 9, Timestamp := 1000 }]) = (some v, none) ∧
      v.length = 2 :=
  let ⟨v, h1, h2, _⟩ := convertValueToVector_vector (fun _ m => m.reverse)
    (fun _ m => List.reverse_perm m)
    [{ Metric := [("job", "a"), ("instance", "b")], Value := 7, Timestamp := 1000 },
      { Metric := [], Value := 9, Timestamp := 1000 }]
  ⟨v, h1, h2⟩

/-- C5, at a scalar result: `convertValueToVector` returns the nil vector and
an error, but the message names `vector`, the type of the zero value the failed
type assertion left in `results`, and not `scalar`, the type of the result. -/
theorem convertValueToVector_scalar_names_vector :
    convertValueToVector (fun _ m => m) (.scalar { Value := 1, Timestamp := 0 })
      = (none, some "Expected Prometheus results of type vector. Actual results type: vector\n") ∧
    model.Value.Type (.scalar { Value := 1, Timestamp := 0 }) = some .ValScalar ∧
    model.ValueType.name .ValScalar = "scalar" :=
  ⟨rfl, rfl, rfl⟩

/-! ## `sendAlerts` -/

theorem sendAlerts_eq {μ : Type} (Send : List notifier.Alert → μ → μ)
    (tableLink : String → String) (externalURL expr : String) (alerts : List rules.Alert)
    (s : μ) :
    sendAlerts Send tableLink externalURL expr alerts s
      = if alerts = [] then s
        else Send (alerts.map (sendAlerts.translate tableLink externalURL expr)) s := by
  unfold sendAlerts
  rw [foldl_append_singleton (sendAlerts.translate tableLink externalURL expr)]
  cases alerts with
  | nil => simp
  | cons a as => simp

theorem translate_EndsAt (tableLink : String → String) (externalURL expr : String)
    (alert : rules.Alert) :
    (sendAlerts.translate tableLink externalURL expr alert).EndsAt
      = if alert.ResolvedAt.IsZero = true then alert.ValidUntil else alert.ResolvedAt := by
  unfold sendAlerts.translate
  cases h : alert.ResolvedAt.IsZero <;> simp

/-- C6: every alert handed to the notify function of `sendAlerts` reaches the
notifier, at the same position of the one batch sent, with `EndsAt` equal to
its `ResolvedAt` when `ResolvedAt` is not the zero time and to its
`ValidUntil` when it is. -/
theorem sendAlerts_EndsAt (tableLink : String → String) (externalURL expr : String)
    (alerts : List rules.Alert) (i : Nat) (alert : rules.Alert)
    (hi : alerts[i]? = some alert) :
    ∃ (batch : List notifier.Alert) (a : notifier.Alert),
      sendAlerts recordSend tableLink externalURL expr alerts [] = [batch] ∧
      batch[i]? = some a ∧
      (alert.ResolvedAt.IsZero = false → a.EndsAt = alert.ResolvedAt) ∧
      (alert.ResolvedAt.IsZero = true → a.EndsAt = alert.ValidUntil) := by
  have hne : alerts ≠ [] := by
    intro h
    simp [h] at hi
  refine ⟨alerts.map (sendAlerts.translate tableLink externalURL expr),
    sendAlerts.translate tableLink externalURL expr alert, ?_, ?_, ?_, ?_⟩
  · simp [sendAlerts_eq, hne, recordSend]
  · simp [hi]
  · intro h
    simp [translate_EndsAt, h]
  · intro h
    simp [translate_EndsAt, h]

/-- A batch of a resolved alert and a firing one: the firing one is sent with
its `ValidUntil` as `EndsAt`. -/
theorem sendAlerts_EndsAt_witness :
    ∃ (batch : List notifier.Alert) (a : notifier.Alert),
      sendAlerts recordSend (fun e => "/graph?g0.expr=" ++ e) "http://x" "up == 0"
        [{ State := 2, Labels := [], Annotations := [], Value := 0,
           ActiveAt := ⟨10, 0, none⟩, FiredAt := ⟨20, 0, none⟩, ResolvedAt := ⟨30, 0, none⟩,
           LastSentAt := ⟨0, 0, none⟩, ValidUntil := ⟨40, 0, none⟩ },
         { State := 2, Labels := [], Annotations := [], Value := 0,
           ActiveAt := ⟨10, 0, none⟩, FiredAt := ⟨20, 0, none⟩, ResolvedAt := ⟨0, 0, none⟩,
           LastSentAt := ⟨0, 0, none⟩, ValidUntil := ⟨50, 0, none⟩ }] [] = [batch] ∧
      batch[1]? = some a ∧ a.EndsAt = ⟨50, 0, none⟩ :=
  let ⟨batch, a, h1, h2, _, h4⟩ := sendAlerts_EndsAt (fun e => "/graph?g0.expr=" ++ e)
    "http://x" "up == 0"
    [{ State := 2, Labels := [], Annotations := [], Value := 0,
       ActiveAt := ⟨10, 0, none⟩, FiredAt := ⟨20, 0, none⟩, ResolvedAt := ⟨30, 0, none⟩,
       LastSentAt := ⟨0, 0, none⟩, ValidUntil := ⟨40, 0, none⟩ },
     { State := 2, Labels := [], Annotations := [], Value := 0,
       ActiveAt := ⟨10, 0, none⟩, FiredAt := ⟨20, 0, none⟩, ResolvedAt := ⟨0, 0, none⟩,
       LastSentAt := ⟨0, 0, none⟩, ValidUntil := ⟨50, 0, none⟩ }]
    1 _ rfl
  ⟨batch, a, h1, h2, h4 rfl⟩

theorem translate_eq (tableLink : String → String) (externalURL expr : String)
    (alert : rules.Alert) :
    sendAlerts.translate tableLink externalURL expr alert
      = { Labels := alert.Labels
          Annotations := alert.Annotations
          StartsAt := alert.FiredAt
          EndsAt := if alert.ResolvedAt.IsZero = true then alert.ValidUntil
            else alert.ResolvedAt
          GeneratorURL := externalURL ++ tableLink expr } := by
  unfold sendAlerts.translate
  cases h : alert.ResolvedAt.IsZero <;> simp

/-- C7: the notify function of `sendAlerts` leaves the notifier untouched on
an empty batch, and on a batch of n > 0 alerts calls `Send` once, with the n
notification alerts built from the input alerts in input order. This holds
for every notifier; on the notifier that records its `Send` calls, no call is
added for the empty batch and exactly one, carrying n alerts, otherwise. The
alert at position i of the batch sent is the one derived from the input
alert at position i: it has the labels and annotations of that alert, its
`FiredAt` as `StartsAt`, its `ResolvedAt` or else its `ValidUntil` as
`EndsAt`, and the external URL followed by the link for the expression as
`GeneratorURL`. -/
theorem sendAlerts_Send_calls (tableLink : String → String) (externalURL expr : String)
    (alerts : List rules.Alert) :
    (∀ (μ : Type) (Send : List notifier.Alert → μ → μ) (s : μ),
      sendAlerts Send tableLink externalURL expr alerts s
        = if alerts = [] then s
          else Send (alerts.map (sendAlerts.translate tableLink externalURL expr)) s) ∧
    (∀ sent : List (List notifier.Alert),
      sendAlerts recordSend tableLink externalURL expr alerts sent
        = if alerts = [] then sent
          else sent ++ [alerts.map (sendAlerts.translate tableLink externalURL expr)]) ∧
    (alerts.map (sendAlerts.translate tableLink externalURL expr)).length = alerts.length ∧
    (∀ (i : Nat) (alert : rules.Alert), alerts[i]? = some alert →
      ∀ sent : List (List notifier.Alert),
        ∃ batch : List notifier.Alert,
          sendAlerts recordSend tableLink externalURL expr alerts sent = sent ++ [batch] ∧
          batch.length = alerts.length ∧
          batch[i]? = some
            { Labels := alert.Labels
              Annotations := alert.Annotations
              StartsAt := alert.FiredAt
              EndsAt := if alert.ResolvedAt.IsZero = true then alert.ValidUntil
                else alert.ResolvedAt
              GeneratorURL := externalURL ++ tableLink expr }) := by
  refine ⟨fun μ Send s => sendAlerts_eq Send tableLink externalURL expr alerts s, ?_, by simp,
    ?_⟩
  · intro sent
    rw [sendAlerts_eq]
    rfl
  · intro i alert hi sent
    have hne : alerts ≠ [] := by
      intro h
      simp [h] at hi
    refine ⟨alerts.map (sendAlerts.translate tableLink externalURL expr), ?_, by simp, ?_⟩
    · simp [sendAlerts_eq, hne, recordSend]
    · rw [List.getElem?_map, hi, Option.map_some', translate_eq]

/-- A batch of a resolved alert and a firing one after an earlier batch: one
more `Send` call, of two alerts, the first ending at its `ResolvedAt`. -/
theorem sendAlerts_Send_calls_witness :
    ∃ batch : List notifier.Alert,
      sendAlerts recordSend (fun e => "/graph?g0.expr=" ++ e) "http://x" "up == 0"
        [{ State := 2, Labels := [⟨"alertname", "Down"⟩], Annotations := [], Value := 0,
           ActiveAt := ⟨10, 0, none⟩, FiredAt := ⟨20, 0, none⟩, ResolvedAt := ⟨30, 0, none⟩,
           LastSentAt := ⟨0, 0, none⟩, ValidUntil := ⟨40, 0, none⟩ },
         { State := 2, Labels := [⟨"alertname", "Slow"⟩], Annotations := [], Value := 0,
           ActiveAt := ⟨10, 0, none⟩, FiredAt := ⟨20, 0, none⟩, ResolvedAt := ⟨0, 0, none⟩,
           LastSentAt := ⟨0, 0, none⟩, ValidUntil := ⟨50, 0, none⟩ }] [[]]
        = [[]] ++ [batch] ∧
      batch.length = 2 ∧
      batch[0]? = some
        { Labels := [⟨"alertname", "Down"⟩], Annotations := [], StartsAt := ⟨20, 0, none⟩,
          EndsAt := ⟨30, 0, none⟩, GeneratorURL := "http://x" ++ "/graph?g0.expr=up == 0" } :=
  (sendAlerts_Send_calls (fun e => "/graph?g0.expr=" ++ e) "http://x" "up == 0"
    [{ State := 2, Labels := [⟨"alertname", "Down"⟩], Annotations := [], Value := 0,
       ActiveAt := ⟨10, 0, none⟩, FiredAt := ⟨20, 0, none⟩, ResolvedAt := ⟨30, 0, none⟩,
       LastSentAt := ⟨0, 0, none⟩, ValidUntil := ⟨40, 0, none⟩ },
     { State := 2, Labels := [⟨"alertname", "Slow"⟩], Annotations := [], Value := 0,
       ActiveAt := ⟨10, 0, none⟩, FiredAt := ⟨20, 0, none⟩, ResolvedAt := ⟨0, 0, none⟩,
       LastSentAt := ⟨0, 0, none⟩, ValidUntil := ⟨50, 0, none⟩ }]).2.2.2 0 _ rfl [[]]

/-! ## `reloadConfig` -/

theorem reloadCalls_append (a b : List Event) :
    reloadCalls (a ++ b) = reloadCalls a ++ reloadCalls b := by
  induction a with
  | nil => rfl
  | cons e es ih => cases e <;> simp [reloadCalls, ih]

theorem enqueueCount_append (a b : List Event) :
    enqueueCount (a ++ b) = enqueueCount a + enqueueCount b := by
  induction a with
  | nil => simp [enqueueCount]
  | cons e es ih =>
    cases e
    · simp [enqueueCount, ih]
    · simp [enqueueCount, ih]
    · simp [enqueueCount, ih]; omega

theorem step_world {σ : Type} (env : Env σ) (conf : config.Config)
    (st : reloadConfig.Loop σ) (rl : reloader σ) :
    (reloadConfig.step env conf st rl).world = (rl.reloader conf st.world).2 := by
  unfold reloadConfig.step
  rcases h : rl.reloader conf st.world with ⟨r, w1⟩
  cases r <;> rfl

theorem step_reloadCalls {σ : Type} (env : Env σ) (conf : config.Config)
    (st : reloadConfig.Loop σ) (rl : reloader σ) :
    reloadCalls (reloadConfig.step env conf st rl).trace
      = reloadCalls st.trace ++ [(rl.name, conf, (rl.reloader conf st.world).1)] := by
  unfold reloadConfig.step
  rcases h : rl.reloader conf st.world with ⟨r, w1⟩
  cases r <;> simp [reloadCalls_append, reloadCalls]

theorem step_enqueueCount {σ : Type} (env : Env σ) (conf : config.Config)
    (st : reloadConfig.Loop σ) (rl : reloader σ) :
    enqueueCount (reloadConfig.step env conf st rl).trace = enqueueCount st.trace := by
  unfold reloadConfig.step
  rcases h : rl.reloader conf st.world with ⟨r, w1⟩
  cases r <;> simp [enqueueCount_append, enqueueCount]

theorem step_failed {σ : Type} (env : Env σ) (conf : config.Config)
    (st : reloadConfig.Loop σ) (rl : reloader σ) :
    (reloadConfig.step env conf st rl).failed
      = (st.failed || (rl.reloader conf st.world).1.isSome) := by
  unfold reloadConfig.step
  rcases h : rl.reloader conf st.world with ⟨r, w1⟩
  cases r <;> simp

theorem foldl_step_world {σ : Type} (env : Env σ) (conf : config.Config)
    (rls : List (reloader σ)) (st : reloadConfig.Loop σ) :
    (rls.foldl (reloadConfig.step env conf) st).world
      = rls.foldl (fun w rl => (rl.reloader conf w).2) st.world := by
  induction rls generalizing st with
  | nil => rfl
  | cons rl rls ih => simp [List.foldl_cons, ih, step_world]

theorem foldl_step_reloadCalls {σ : Type} (env : Env σ) (conf : config.Config)
    (rls : List (reloader σ)) (st : reloadConfig.Loop σ) :
    reloadCalls (rls.foldl (reloadConfig.step env conf) st).trace
      = reloadCalls st.trace ++ loopCalls conf rls st.world := by
  induction rls generalizing st with
  | nil => simp [loopCalls]
  | cons rl rls ih =>
    simp [List.foldl_cons, ih, step_world, step_reloadCalls, loopCalls]

theorem foldl_step_enqueueCount {σ : Type} (env : Env σ) (conf : config.Config)
    (rls : List (reloader σ)) (st : reloadConfig.Loop σ) :
    enqueueCount (rls.foldl (reloadConfig.step env conf) st).trace = enqueueCount st.trace := by
  induction rls generalizing st with
  | nil => rfl
  | cons rl rls ih => simp [List.foldl_cons, ih, step_enqueueCount]

theorem foldl_step_failed {σ : Type} (env : Env σ) (conf : config.Config)
    (rls : List (reloader σ)) (st : reloadConfig.Loop σ) :
    (rls.foldl (reloadConfig.step env conf) st).failed
      = (st.failed || (loopCalls conf rls st.world).any (fun c => c.2.2.isSome)) := by
  induction rls generalizing st with
  | nil => simp [loopCalls]
  | cons rl rls ih =>
    simp [List.foldl_cons, ih, step_world, step_failed, loopCalls, Bool.or_assoc]

theorem loopCalls_map {σ : Type} (conf : config.Config) (rls : List (reloader σ)) (w : σ) :
    (loopCalls conf rls w).map (fun c => (c.1, c.2.1)) = rls.map (fun rl => (rl.name, conf)) := by
  induction rls generalizing w with
  | nil => rfl
  | cons rl rls ih => simp [loopCalls, ih]

/-- What `reloadConfig` returns once the file has loaded, in terms of the
calls of its loop. -/
theorem reloadConfig_ok {σ : Type} (env : Env σ) (filename : String)
    (rls : List (reloader σ)) (w : σ) (conf : config.Config)
    (hload : env.LoadFile filename w = .ok conf) :
    reloadCalls (reloadConfig env filename rls w).2.2 = loopCalls conf rls w ∧
    (reloadConfig env filename rls w).2.1 = rls.foldl (fun w rl => (rl.reloader conf w).2) w ∧
    (reloadConfig env filename rls w).1
      = (if (loopCalls conf rls w).any (fun c => c.2.2.isSome) then
          some ("one or more errors occurred while applying the new configuration (--config.file="
            ++ env.quote filename ++ ")")
        else none) ∧
    enqueueCount (reloadConfig env filename rls w).2.2 = 0 := by
  simp only [reloadConfig, hload]
  split
  next hf =>
    rw [foldl_step_failed] at hf
    simp only [Bool.false_or] at hf
    simp [foldl_step_reloadCalls, foldl_step_world, foldl_step_enqueueCount, hf, reloadCalls,
      enqueueCount]
  next hf =>
    rw [foldl_step_failed] at hf
    simp only [Bool.false_or] at hf
    simp [foldl_step_reloadCalls, foldl_step_world, foldl_step_enqueueCount, hf, reloadCalls,
      enqueueCount, reloadCalls_append, enqueueCount_append]

/-- C1: once the file has loaded as `conf`, the reloader calls `reloadConfig`
makes are, in order, one call per registered reloader, each with `conf`,
whatever any of them returned; the world it leaves is the world after those
calls, in that order. -/
theorem reloadConfig_applies_every_target {σ : Type} (env : Env σ) (filename : String)
    (rls : List (reloader σ)) (w : σ) (conf : config.Config)
    (hload : env.LoadFile filename w = .ok conf) :
    (reloadCalls (reloadConfig env filename rls w).2.2).map (fun c => (c.1, c.2.1))
      = rls.map (fun rl => (rl.name, conf)) ∧
    (reloadConfig env filename rls w).2.1
      = rls.foldl (fun w rl => (rl.reloader conf w).2) w := by
  obtain ⟨h1, h2, _, _⟩ := reloadConfig_ok env filename rls w conf hload
  exact ⟨by rw [h1, loopCalls_map], h2⟩

/-- Three reloaders, the second of which fails: the third is still called. -/
theorem reloadConfig_applies_every_target_witness :
    (reloadCalls (reloadConfig exampleEnv "prometheus.yml" exampleReloaders
        { queries := 0, applied := [] }).2.2).map (fun c => (c.1, c.2.1))
      = [("a", exampleConfig), ("b", exampleConfig), ("c", exampleConfig)] ∧
    (reloadConfig exampleEnv "prometheus.yml" exampleReloaders
        { queries := 0, applied := [] }).2.1 = { queries := 0, applied := ["a", "b", "c"] } :=
  reloadConfig_applies_every_target exampleEnv "prometheus.yml" exampleReloaders
    { queries := 0, applied := [] } exampleConfig rfl

theorem loopCalls_getElem? {σ : Type} (conf : config.Config) (rls : List (reloader σ)) (w : σ)
    (i : Nat) :
    (loopCalls conf rls w)[i]?
      = (rls[i]?).map (fun rl => (rl.name, conf,
          (rl.reloader conf ((rls.take i).foldl (fun w r => (r.reloader conf w).2) w)).1)) := by
  induction rls generalizing i w with
  | nil => simp [loopCalls]
  | cons rl rls ih =>
    cases i with
    | zero => simp [loopCalls]
    | succ i => simp [loopCalls, ih]

theorem loopCalls_exists {σ : Type} (conf : config.Config) (rls : List (reloader σ)) (w : σ) :
    (∃ c ∈ loopCalls conf rls w, c.2.2.isSome = true) ↔
      ∃ (i : Nat) (rl : reloader σ), rls[i]? = some rl ∧
        (rl.reloader conf
          ((rls.take i).foldl (fun w r => (r.reloader conf w).2) w)).1.isSome = true := by
  constructor
  · rintro ⟨c, hc, hs⟩
    obtain ⟨i, hi⟩ := List.mem_iff_getElem?.mp hc
    rw [loopCalls_getElem?] at hi
    cases hrl : rls[i]? with
    | none => simp [hrl] at hi
    | some rl =>
      simp only [hrl, Option.map_some', Option.some.injEq] at hi
      refine ⟨i, rl, hrl, ?_⟩
      rw [← hi] at hs
      exact hs
  · rintro ⟨i, rl, hrl, hs⟩
    refine ⟨(rl.name, conf, (rl.reloader conf
      ((rls.take i).foldl (fun w r => (r.reloader conf w).2) w)).1),
      List.mem_iff_getElem?.mpr ⟨i, ?_⟩, hs⟩
    rw [loopCalls_getElem?, hrl]
    rfl

/-- C2: once the file has loaded, `reloadConfig` returns an error exactly
when one of the reloader calls it made returned an error, and returns nil
exactly when every call returned nil; with no reloader it returns nil. The
calls it made are the calls of the reloaders themselves: `reloadConfig`
returns an error exactly when, for some i, the reloader function of the i-th
registered reloader returns an error on the loaded configuration and the
world that the reloaders before it left, and returns nil exactly when none
does. -/
theorem reloadConfig_fails_iff {σ : Type} (env : Env σ) (filename : String)
    (rls : List (reloader σ)) (w : σ) (conf : config.Config)
    (hload : env.LoadFile filename w = .ok conf) :
    ((reloadConfig env filename rls w).1.isSome = true ↔
      ∃ c ∈ reloadCalls (reloadConfig env filename rls w).2.2, c.2.2.isSome = true) ∧
    ((reloadConfig env filename rls w).1 = none ↔
      ∀ c ∈ reloadCalls (reloadConfig env filename rls w).2.2, c.2.2 = none) ∧
    (reloadConfig env filename [] w).1 = none ∧
    reloadCalls (reloadConfig env filename rls w).2.2 = loopCalls conf rls w ∧
    ((reloadConfig env filename rls w).1.isSome = true ↔
      ∃ (i : Nat) (rl : reloader σ), rls[i]? = some rl ∧
        (rl.reloader conf
          ((rls.take i).foldl (fun w r => (r.reloader conf w).2) w)).1.isSome = true) ∧
    ((reloadConfig env filename rls w).1 = none ↔
      ∀ (i : Nat) (rl : reloader σ), rls[i]? = some rl →
        (rl.reloader conf
          ((rls.take i).foldl (fun w r => (r.reloader conf w).2) w)).1 = none) := by
  obtain ⟨h1, _, h3, _⟩ := reloadConfig_ok env filename rls w conf hload
  obtain ⟨_, _, h3n, _⟩ := reloadConfig_ok env filename [] w conf hload
  have hA : (reloadConfig env filename rls w).1.isSome = true ↔
      ∃ c ∈ loopCalls conf rls w, c.2.2.isSome = true := by
    rw [h3]
    by_cases h : (loopCalls conf rls w).any (fun c => c.2.2.isSome) = true
    · simp only [h, if_true, Option.isSome_some, true_iff]
      simpa using h
    · simp only [h, Option.isSome_none, false_iff]
      simpa using h
  have hB : (reloadConfig env filename rls w).1 = none ↔
      ∀ c ∈ loopCalls conf rls w, c.2.2 = none := by
    rw [h3]
    by_cases h : (loopCalls conf rls w).any (fun c => c.2.2.isSome) = true
    · have hex := List.any_eq_true.mp h
      obtain ⟨c, hc, hs⟩ := hex
      simp only [h, if_true]
      constructor
      · intro hcontra
        cases hcontra
      · intro hall
        simp [hall c hc] at hs
    · simp only [h]
      refine ⟨fun _ => ?_, fun _ => rfl⟩
      intro c hc
      have := fun hs => h (List.any_eq_true.mpr ⟨c, hc, hs⟩)
      cases hr : c.2.2 with
      | none => rfl
      | some e => simp [hr] at this
  have hE := hA.trans (loopCalls_exists conf rls w)
  refine ⟨by rw [h1]; exact hA, by rw [h1]; exact hB, by rw [h3n]; simp [loopCalls], h1, hE, ?_⟩
  constructor
  · intro hnone i rl hrl
    cases hr : (rl.reloader conf
        ((rls.take i).foldl (fun w r => (r.reloader conf w).2) w)).1 with
    | none => rfl
    | some e =>
      have : (reloadConfig env filename rls w).1.isSome = true :=
        hE.mpr ⟨i, rl, hrl, by rw [hr]; rfl⟩
      rw [hnone] at this
      cases this
  · intro hall
    cases hr : (reloadConfig env filename rls w).1 with
    | none => rfl
    | some e =>
      obtain ⟨i, rl, hrl, hs⟩ := hE.mp (by rw [hr]; rfl)
      rw [hall i rl hrl] at hs
      cases hs

/-- Three reloaders, the second of which fails: the reload fails, and the
second reloader is one whose reloader function returns an error on the world
the first left. -/
theorem reloadConfig_fails_iff_witness :
    (reloadConfig exampleEnv "prometheus.yml" exampleReloaders
        { queries := 0, applied := [] }).1
      = some ("one or more errors occurred while applying the new configuration "
          ++ "(--config.file=\"prometheus.yml\")") ∧
    ((reloadConfig exampleEnv "prometheus.yml" exampleReloaders
        { queries := 0, applied := [] }).1.isSome = true ↔
      ∃ c ∈ reloadCalls (reloadConfig exampleEnv "prometheus.yml" exampleReloaders
        { queries := 0, applied := [] }).2.2, c.2.2.isSome = true) ∧
    ((reloadConfig exampleEnv "prometheus.yml" exampleReloaders
        { queries := 0, applied := [] }).1.isSome = true ↔
      ∃ (i : Nat) (rl : reloader ExampleWorld), exampleReloaders[i]? = some rl ∧
        (rl.reloader exampleConfig
          ((exampleReloaders.take i).foldl (fun w r => (r.reloader exampleConfig w).2)
            { queries := 0, applied := [] })).1.isSome = true) :=
  ⟨rfl, (reloadConfig_fails_iff exampleEnv "prometheus.yml" exampleReloaders
    { queries := 0, applied := [] } exampleConfig rfl).1,
    (reloadConfig_fails_iff exampleEnv "prometheus.yml" exampleReloaders
    { queries := 0, applied := [] } exampleConfig rfl).2.2.2.2.1⟩

/-- C3: when the file fails to load, `reloadConfig` returns an error that
wraps the load error, makes no reloader call and leaves the world as it was. -/
theorem reloadConfig_load_failure {σ : Type} (env : Env σ) (filename : String)
    (rls : List (reloader σ)) (w : σ) (e : Error)
    (hload : env.LoadFile filename w = .error e) :
    (reloadConfig env filename rls w).1
      = some ("couldn't load configuration (--config.file=" ++ env.quote filename ++ "): " ++ e) ∧
    reloadCalls (reloadConfig env filename rls w).2.2 = [] ∧
    (reloadConfig env filename rls w).2.1 = w := by
  simp [reloadConfig, hload, reloadCalls]

/-- A file that does not exist: no reloader is called. -/
theorem reloadConfig_load_failure_witness :
    (reloadConfig exampleEnv "absent.yml" exampleReloaders { queries := 0, applied := [] }).1
      = some ("couldn't load configuration (--config.file=\"absent.yml\"): "
          ++ "open absent.yml: no such file or directory") ∧
    reloadCalls (reloadConfig exampleEnv "absent.yml" exampleReloaders
      { queries := 0, applied := [] }).2.2 = [] ∧
    (reloadConfig exampleEnv "absent.yml" exampleReloaders { queries := 0, applied := [] }).2.1
      = { queries := 0, applied := [] } :=
  reloadConfig_load_failure exampleEnv "absent.yml" exampleReloaders
    { queries := 0, applied := [] } "open absent.yml: no such file or directory" rfl

/-! ## The reload endpoint -/

theorem reloadConfig_enqueueCount {σ : Type} (env : Env σ) (filename : String)
    (rls : List (reloader σ)) (w : σ) :
    enqueueCount (reloadConfig env filename rls w).2.2 = 0 := by
  cases hload : env.LoadFile filename w with
  | error e => simp [reloadConfig, hload, enqueueCount]
  | ok conf => exact (reloadConfig_ok env filename rls w conf hload).2.2.2

/-- C8: a request to the reload endpoint whose method is not POST is answered
405 without a send on `reloadCh`, a reloader call or a change of the world. A
POST request sends once on `reloadCh`; the reload actor then runs
`reloadConfig` once, and the request is answered 500 with the plain-text body
`Failed to reload config: ` followed by the error when `reloadConfig`
returned an error, and 200 with an empty body when it returned nil. -/
theorem serveReload_response {σ : Type} (env : Env σ) (configFile : String)
    (rls : List (reloader σ)) (method : String) (w : σ) :
    ∃ s : Served σ, serveReload env configFile rls method w = some s ∧
      (method ≠ "POST" →
        s.response.statusCode = 405 ∧ s.response.body = "Only POST requests allowed.\n" ∧
        enqueueCount s.trace = 0 ∧ reloadCalls s.trace = [] ∧ s.world = w) ∧
      (method = "POST" →
        enqueueCount s.trace = 1 ∧
        reloadCalls s.trace = reloadCalls (reloadConfig env configFile rls w).2.2 ∧
        s.world = (reloadConfig env configFile rls w).2.1 ∧
        (∀ e, (reloadConfig env configFile rls w).1 = some e →
          s.response.statusCode = 500 ∧
          s.response.body = "Failed to reload config: " ++ e ++ "\n" ∧
          s.response.header = [("Content-Type", "text/plain; charset=utf-8"),
            ("X-Content-Type-Options", "nosniff")]) ∧
        ((reloadConfig env configFile rls w).1 = none →
          s.response.statusCode = 200 ∧ s.response.body = "")) := by
  by_cases hm : method = "POST"
  · have hq := reloadConfig_enqueueCount env configFile rls w
    rcases hr : reloadConfig env configFile rls w with ⟨r, w1, tr⟩
    rw [hr] at hq
    cases r with
    | none =>
      refine ⟨{ response := http.ResponseWriter.fresh, world := w1, trace := [Event.enqueue] ++ tr },
        ?_, fun h => absurd hm h, fun _ => ?_⟩
      · simp [serveReload, reloadHandler, hm, HandlerProc.run, reloadActor.onRequest, hr]
      · simp at hq
        simp [enqueueCount, reloadCalls, hq, http.ResponseWriter.statusCode,
          http.ResponseWriter.fresh]
    | some e =>
      refine ⟨Served.mk
          (http.Error http.ResponseWriter.fresh ("Failed to reload config: " ++ e)
            http.StatusInternalServerError)
          w1
          ([Event.enqueue] ++ (tr ++ [.log "error" [.str "msg",
            .str "Error reloading config", .str "err", .err e]])),
        ?_, fun h => absurd hm h, fun _ => ?_⟩
      · simp [serveReload, reloadHandler, hm, HandlerProc.run, reloadActor.onRequest, hr]
      · simp at hq
        simp [enqueueCount, reloadCalls, enqueueCount_append, reloadCalls_append, hq,
          http.ResponseWriter.statusCode, http.ResponseWriter.fresh, http.Error,
          http.ResponseWriter.Write, http.ResponseWriter.WriteHeader,
          http.ResponseWriter.SetHeader, mapSet, http.StatusInternalServerError]
  · refine ⟨Served.mk (http.Error http.ResponseWriter.fresh "Only POST requests allowed."
          http.StatusMethodNotAllowed) w [],
      ?_, fun _ => ?_, fun h => absurd h hm⟩
    · simp [serveReload, reloadHandler, hm, HandlerProc.run]
    · simp [enqueueCount, reloadCalls, http.ResponseWriter.statusCode,
        http.ResponseWriter.fresh, http.Error, http.ResponseWriter.Write,
        http.ResponseWriter.WriteHeader, http.ResponseWriter.SetHeader, mapSet,
        http.StatusMethodNotAllowed]

/-- A POST request, with three reloaders the second of which fails: one send
on `reloadCh`, answered 500. -/
theorem serveReload_response_witness :
    ∃ s : Served ExampleWorld,
      serveReload exampleEnv "prometheus.yml" exampleReloaders "POST"
        { queries := 0, applied := [] } = some s ∧
      enqueueCount s.trace = 1 ∧
      s.response.statusCode = 500 ∧
      s.response.body = "Failed to reload config: "
        ++ ("one or more errors occurred while applying the new configuration "
          ++ "(--config.file=\"prometheus.yml\")") ++ "\n" :=
  let ⟨s, h, _, hp⟩ := serveReload_response exampleEnv "prometheus.yml" exampleReloaders "POST"
    { queries := 0, applied := [] }
  ⟨s, h, (hp rfl).1, ((hp rfl).2.2.2.1 _ rfl).1, ((hp rfl).2.2.2.1 _ rfl).2.1⟩

/-! ## The readiness endpoint -/

theorem queryFunc_err {σ : Type} (env : Env σ) (q : String) (t : time.Time) (w : σ) :
    ((queryFunc env q t w).1.2 = none ↔
      (env.Query q (env.now w) w).1.2.2 = none ∧
        ∃ v, (env.Query q (env.now w) w).1.1 = .vector v) ∧
    (queryFunc env q t w).2.1 = (env.Query q (env.now w) w).2 := by
  rcases hq : env.Query q (env.now w) w with ⟨⟨results, warnings, err⟩, w1⟩
  cases err with
  | some e => simp [queryFunc, QueryFunc, hq]
  | none =>
    cases results with
    | vector v => simp [queryFunc, QueryFunc, hq, convertValueToVector_vector_eq]
    | nil => simp [queryFunc, QueryFunc, hq, convertValueToVector, assertVector]
    | scalar x => simp [queryFunc, QueryFunc, hq, convertValueToVector, assertVector]
    | matrix x => simp [queryFunc, QueryFunc, hq, convertValueToVector, assertVector]
    | string x => simp [queryFunc, QueryFunc, hq, convertValueToVector, assertVector]

theorem serveReady_eq {σ : Type} (env : Env σ) (w : σ) :
    ((queryFunc env "vector(1)" (env.now w) w).1.2 = none →
      (serveReady env w).response.statusCode = 200 ∧
      (serveReady env w).response.body = "Prometheus is Ready.\n") ∧
    ((queryFunc env "vector(1)" (env.now w) w).1.2 ≠ none →
      (serveReady env w).response.statusCode = 503 ∧
      (serveReady env w).response.body = "Prometheus is not Ready.\n") ∧
    (serveReady env w).world = (queryFunc env "vector(1)" (env.now w) w).2.1 := by
  rcases hq : queryFunc env "vector(1)" (env.now w) w with ⟨⟨v, err⟩, w1, tr⟩
  cases err with
  | some e =>
    simp [serveReady, readyHandler, hq, http.ResponseWriter.statusCode, http.ResponseWriter.fresh, http.ResponseWriter.Write,
      http.ResponseWriter.WriteHeader, http.StatusServiceUnavailable]
  | none =>
    simp [serveReady, readyHandler, hq, http.ResponseWriter.statusCode,
      http.ResponseWriter.fresh, http.ResponseWriter.Write,
      http.ResponseWriter.WriteHeader, http.StatusOK]

/-- C9: a request to the readiness endpoint runs the query `vector(1)`
through `queryFunc`, that is the backend query at the current time followed
by `convertValueToVector`. It is answered 200 with the body
`Prometheus is Ready.` and a newline exactly when that query returns no error
(the backend returned no error and a vector), and 503 with the body
`Prometheus is not Ready.` and a newline otherwise. The answer depends on
that query alone: a probe whose query fails followed by a probe whose query
succeeds is answered 503 and then 200. -/
theorem serveReady_response {σ : Type} (env : Env σ) (w : σ) :
    (((serveReady env w).response.statusCode = 200 ∧
        (serveReady env w).response.body = "Prometheus is Ready.\n") ↔
      (queryFunc env "vector(1)" (env.now w) w).1.2 = none) ∧
    ((queryFunc env "vector(1)" (env.now w) w).1.2 = none ↔
      (env.Query "vector(1)" (env.now w) w).1.2.2 = none ∧
        ∃ v, (env.Query "vector(1)" (env.now w) w).1.1 = .vector v) ∧
    ((queryFunc env "vector(1)" (env.now w) w).1.2 ≠ none →
      (serveReady env w).response.statusCode = 503 ∧
      (serveReady env w).response.body = "Prometheus is not Ready.\n") ∧
    (serveReady env w).world = (env.Query "vector(1)" (env.now w) w).2 ∧
    ((queryFunc env "vector(1)" (env.now w) w).1.2 ≠ none →
      (queryFunc env "vector(1)" (env.now (serveReady env w).world)
        (serveReady env w).world).1.2 = none →
      (serveReady env w).response.statusCode = 503 ∧
      (serveReady env (serveReady env w).world).response.statusCode = 200) := by
  obtain ⟨hok, herr, hw⟩ := serveReady_eq env w
  obtain ⟨hok2, _, _⟩ := serveReady_eq env (serveReady env w).world
  obtain ⟨hq, hqw⟩ := queryFunc_err env "vector(1)" (env.now w) w
  refine ⟨⟨fun h => ?_, hok⟩, hq, herr, by rw [hw, hqw], fun h1 h2 => ⟨(herr h1).1, (hok2 h2).1⟩⟩
  by_contra hne
  have := (herr hne).1
  omega

/-- The example environment, whose first backend query fails and whose second
succeeds: two probes are answered 503 and then 200. -/
theorem serveReady_response_witness :
    (serveReady exampleEnv { queries := 0, applied := [] }).response.statusCode = 503 ∧
    (serveReady exampleEnv { queries := 0, applied := [] }).response.body
      = "Prometheus is not Ready.\n" ∧
    (serveReady exampleEnv (serveReady exampleEnv
      { queries := 0, applied := [] }).world).response.statusCode = 200 :=
  have h := serveReady_response exampleEnv { queries := 0, applied := [] }
  ⟨(h.2.2.2.2 (by decide) rfl).1, (h.2.2.1 (by decide)).2, (h.2.2.2.2 (by decide) rfl).2⟩

/-! ## The reloaders of `main` -/

theorem QueryFunc_of_answer {σ : Type} (env : Env σ) (q : String) (t : time.Time) (w : σ) :
    QueryFunc env q t w
      = (match (env.Query q (env.now w) w).1.2.2 with
          | some e =>
            (none, (env.Query q (env.now w) w).1.2.1,
              some ("Error querying Prometheus: " ++ e ++ "\n"))
          | none =>
            ((convertValueToVector env.rangeOrder (env.Query q (env.now w) w).1.1).1,
              (env.Query q (env.now w) w).1.2.1,
              (convertValueToVector env.rangeOrder (env.Query q (env.now w) w).1.1).2),
        (env.Query q (env.now w) w).2) := by
  rcases hq : env.Query q (env.now w) w with ⟨⟨results, warnings, err⟩, w1⟩
  cases err <;> simp [QueryFunc, hq]

/-- C13: `QueryFunc` does not use its argument `t`. Two calls that differ
only in `t` return the same vector, warnings and error and leave the same
world; the one backend call made is `Query` with the query string and the
current time `time.Now()`, and two calls (whatever their `t`) that get the
same answer to it return the same result. The warnings of the backend are
passed on, and when the backend returns an error `QueryFunc` returns the nil
vector and an error that carries the message of the backend error. -/
theorem QueryFunc_ignores_t {σ : Type} (env env1 : Env σ) (q : String) (t t1 : time.Time)
    (w : σ) (hrange : env1.rangeOrder = env.rangeOrder)
    (hanswer : env1.Query q (env1.now w) w = env.Query q (env.now w) w) :
    QueryFunc env q t1 w = QueryFunc env q t w ∧
    queryFunc env q t1 w = queryFunc env q t w ∧
    QueryFunc env1 q t1 w = QueryFunc env q t w ∧
    (QueryFunc env q t w).2 = (env.Query q (env.now w) w).2 ∧
    (QueryFunc env q t w).1.2.1 = (env.Query q (env.now w) w).1.2.1 ∧
    (∀ e, (env.Query q (env.now w) w).1.2.2 = some e →
      (QueryFunc env q t w).1.1 = none ∧
      (QueryFunc env q t w).1.2.2 = some ("Error querying Prometheus: " ++ e ++ "\n")) := by
  refine ⟨rfl, rfl, ?_, ?_, ?_, ?_⟩
  · rw [QueryFunc_of_answer env1, QueryFunc_of_answer env, hanswer, hrange]
  · rw [QueryFunc_of_answer env]
  · rw [QueryFunc_of_answer env]
    cases (env.Query q (env.now w) w).1.2.2 <;> rfl
  · intro e he
    rw [QueryFunc_of_answer env, he]
    exact ⟨rfl, rfl⟩

/-- The example environment, whose first backend query fails: two calls at
different evaluation times return the same error and no vector. -/
theorem QueryFunc_ignores_t_witness :
    QueryFunc exampleEnv "up" { sec := 100, nsec := 0, loc := none }
        { queries := 0, applied := [] }
      = QueryFunc exampleEnv "up" { sec := 5, nsec := 0, loc := none }
        { queries := 0, applied := [] } ∧
    (QueryFunc exampleEnv "up" { sec := 5, nsec := 0, loc := none }
        { queries := 0, applied := [] }).1
      = (none, [], some "Error querying Prometheus: connection refused\n") :=
  have h := QueryFunc_ignores_t exampleEnv exampleEnv "up" { sec := 5, nsec := 0, loc := none }
    { sec := 100, nsec := 0, loc := none } { queries := 0, applied := [] } rfl rfl
  ⟨h.1, Prod.ext (h.2.2.2.2.2 "connection refused" rfl).1
    (Prod.ext h.2.2.2.2.1 (h.2.2.2.2.2 "connection refused" rfl).2)⟩

/-! ## The reload actor -/

theorem scan_append (ph : ListenerPhase) (a b : List ActorEvent) :
    ph.scan (a ++ b) = (ph.scan a).bind (fun ph1 => ph1.scan b) := by
  induction a generalizing ph with
  | nil => rfl
  | cons e es ih =>
    simp only [List.cons_append, ListenerPhase.scan]
    cases h : ph.next e with
    | none => rfl
    | some ph1 => exact ih ph1

theorem scan_did (m : Received) (tr : List Event) :
    (ListenerPhase.reloading m).scan (tr.map ActorEvent.did) = some (.reloading m) := by
  induction tr with
  | nil => rfl
  | cons e es ih =>
    simp only [List.map_cons, ListenerPhase.scan]
    have : (ListenerPhase.reloading m).next (.did e) = some (.reloading m) := by
      cases m <;> rfl
    rw [this]
    exact ih

theorem replies_append (a b : List ActorEvent) : replies (a ++ b) = replies a ++ replies b := by
  induction a with
  | nil => rfl
  | cons e es ih => cases e <;> simp [replies, ih]

theorem reloadResults_append (a b : List ActorEvent) :
    reloadResults (a ++ b) = reloadResults a ++ reloadResults b := by
  induction a with
  | nil => rfl
  | cons e es ih => cases e <;> simp [reloadResults, ih]

theorem replies_did (tr : List Event) : replies (tr.map ActorEvent.did) = [] := by
  induction tr with
  | nil => rfl
  | cons e es ih => simpa [replies] using ih

theorem reloadResults_did (tr : List Event) : reloadResults (tr.map ActorEvent.did) = [] := by
  induction tr with
  | nil => rfl
  | cons e es ih => simpa [reloadResults] using ih

/-- The branch for `hup`: one complete call of `reloadConfig`, no reply. -/
theorem onHup_spec {σ : Type} (env : Env σ) (configFile : String) (rls : List (reloader σ))
    (w : σ) :
    (ListenerPhase.got .hup).scan (reloadActor.onHup env configFile rls w).2 = some .idle ∧
    reloadResults (reloadActor.onHup env configFile rls w).2
      = [(reloadConfig env configFile rls w).1] ∧
    replies (reloadActor.onHup env configFile rls w).2 = [] ∧
    (reloadActor.onHup env configFile rls w).1 = (reloadConfig env configFile rls w).2.1 := by
  rcases hr : reloadConfig env configFile rls w with ⟨err, w1, tr⟩
  cases err with
  | none =>
    simp [reloadActor.onHup, reloadActor.call, hr, scan_append, scan_did, ListenerPhase.scan,
      ListenerPhase.next, reloadResults_append, reloadResults_did, reloadResults,
      replies_append, replies_did, replies]
  | some e =>
    simp [reloadActor.onHup, reloadActor.call, hr, scan_append, scan_did, ListenerPhase.scan,
      ListenerPhase.next, reloadResults_append, reloadResults_did, reloadResults,
      replies_append, replies_did, replies]

/-- The branch for a request: one complete call of `reloadConfig`, then one
reply on the response channel of the request, carrying the result. -/
theorem onReloadCh_spec {σ : Type} (env : Env σ) (configFile : String)
    (rls : List (reloader σ)) (rc : Nat) (w : σ) :
    (ListenerPhase.got (.request rc)).scan (reloadActor.onReloadCh env configFile rls rc w).2
      = some .idle ∧
    reloadResults (reloadActor.onReloadCh env configFile rls rc w).2
      = [(reloadConfig env configFile rls w).1] ∧
    replies (reloadActor.onReloadCh env configFile rls rc w).2
      = [(rc, (reloadConfig env configFile rls w).1)] ∧
    (reloadActor.onReloadCh env configFile rls rc w).1
      = (reloadConfig env configFile rls w).2.1 := by
  rcases hr : reloadConfig env configFile rls w with ⟨err, w1, tr⟩
  cases err with
  | none =>
    simp [reloadActor.onReloadCh, reloadActor.call, hr, scan_append, scan_did,
      ListenerPhase.scan, ListenerPhase.next, reloadResults_append, reloadResults_did,
      reloadResults, replies_append, replies_did, replies]
  | some e =>
    simp [reloadActor.onReloadCh, reloadActor.call, hr, scan_append, scan_did,
      ListenerPhase.scan, ListenerPhase.next, reloadResults_append, reloadResults_did,
      reloadResults, replies_append, replies_did, replies]

theorem run_nil {σ : Type} (env : Env σ) (configFile : String) (rls : List (reloader σ))
    (w : σ) :
    reloadActor.run env configFile rls [] w = { world := w, trace := [], returned := false } :=
  rfl

theorem run_cancel {σ : Type} (env : Env σ) (configFile : String) (rls : List (reloader σ))
    (ms : List Received) (w : σ) :
    reloadActor.run env configFile rls (.cancel :: ms) w
      = { world := w, trace := [.received .cancel, .returned], returned := true } :=
  rfl

theorem run_hup {σ : Type} (env : Env σ) (configFile : String) (rls : List (reloader σ))
    (ms : List Received) (w : σ) :
    reloadActor.run env configFile rls (.hup :: ms) w
      = { world := (reloadActor.run env configFile rls ms
            (reloadActor.onHup env configFile rls w).1).world
          trace := [ActorEvent.received .hup] ++ (reloadActor.onHup env configFile rls w).2
            ++ (reloadActor.run env configFile rls ms
              (reloadActor.onHup env configFile rls w).1).trace
          returned := (reloadActor.run env configFile rls ms
            (reloadActor.onHup env configFile rls w).1).returned } :=
  rfl

theorem run_request {σ : Type} (env : Env σ) (configFile : String) (rls : List (reloader σ))
    (rc : Nat) (ms : List Received) (w : σ) :
    reloadActor.run env configFile rls (.request rc :: ms) w
      = { world := (reloadActor.run env configFile rls ms
            (reloadActor.onReloadCh env configFile rls rc w).1).world
          trace := [ActorEvent.received (.request rc)]
            ++ (reloadActor.onReloadCh env configFile rls rc w).2
            ++ (reloadActor.run env configFile rls ms
              (reloadActor.onReloadCh env configFile rls rc w).1).trace
          returned := (reloadActor.run env configFile rls ms
            (reloadActor.onReloadCh env configFile rls rc w).1).returned } :=
  rfl

theorem scan_received (m : Received) (es : List ActorEvent) :
    ListenerPhase.idle.scan ([ActorEvent.received m] ++ es) = (ListenerPhase.got m).scan es :=
  rfl

theorem run_spec {σ : Type} (env : Env σ) (configFile : String) (rls : List (reloader σ))
    (ms : List Received) (w : σ) :
    ListenerPhase.idle.scan (reloadActor.run env configFile rls ms w).trace
      = some (if (reloadActor.run env configFile rls ms w).returned then .stopped else .idle) ∧
    (reloadResults (reloadActor.run env configFile rls ms w).trace).length
      = (handled ms).length ∧
    (replies (reloadActor.run env configFile rls ms w).trace).map Prod.fst
      = requestChannels (handled ms) := by
  induction ms generalizing w with
  | nil => exact ⟨rfl, rfl, rfl⟩
  | cons m ms ih =>
    cases m with
    | cancel => exact ⟨rfl, rfl, rfl⟩
    | hup =>
      obtain ⟨h1, h2, h3, _⟩ := onHup_spec env configFile rls w
      obtain ⟨i1, i2, i3⟩ := ih (reloadActor.onHup env configFile rls w).1
      rw [run_hup]
      refine ⟨?_, ?_, ?_⟩
      · rw [List.append_assoc, scan_received, scan_append, h1]
        exact i1
      · rw [reloadResults_append, reloadResults_append, h2, List.length_append,
          List.length_append, i2]
        simp [reloadResults, handled]
        omega
      · rw [replies_append, replies_append, h3, List.map_append, List.map_append, i3]
        simp [replies, handled, requestChannels]
    | request rc =>
      obtain ⟨h1, h2, h3, _⟩ := onReloadCh_spec env configFile rls rc w
      obtain ⟨i1, i2, i3⟩ := ih (reloadActor.onReloadCh env configFile rls rc w).1
      rw [run_request]
      refine ⟨?_, ?_, ?_⟩
      · rw [List.append_assoc, scan_received, scan_append, h1]
        exact i1
      · rw [reloadResults_append, reloadResults_append, h2, List.length_append,
          List.length_append, i2]
        simp [reloadResults, handled]
        omega
      · rw [replies_append, replies_append, h3, List.map_append, List.map_append, i3]
        simp [replies, handled, requestChannels]

theorem didEvents_append (a b : List ActorEvent) :
    didEvents (a ++ b) = didEvents a ++ didEvents b := by
  induction a with
  | nil => rfl
  | cons e es ih => cases e <;> simp [didEvents, ih]

theorem didEvents_did (tr : List Event) : didEvents (tr.map ActorEvent.did) = tr := by
  induction tr with
  | nil => rfl
  | cons e es ih => simp [didEvents, ih]

theorem onHup_did {σ : Type} (env : Env σ) (configFile : String) (rls : List (reloader σ))
    (w : σ) :
    didEvents (reloadActor.onHup env configFile rls w).2
      = (reloadConfig env configFile rls w).2.2
        ++ (match (reloadConfig env configFile rls w).1 with
            | some err => [Event.log "error" [.str "msg", .str "Error reloading config",
                .str "err", .err err]]
            | none => []) := by
  rcases hr : reloadConfig env configFile rls w with ⟨err, w1, tr⟩
  cases err <;>
    simp [reloadActor.onHup, reloadActor.call, hr, didEvents_append, didEvents_did, didEvents]

theorem onReloadCh_did {σ : Type} (env : Env σ) (configFile : String)
    (rls : List (reloader σ)) (rc : Nat) (w : σ) :
    didEvents (reloadActor.onReloadCh env configFile rls rc w).2
      = (reloadConfig env configFile rls w).2.2
        ++ (match (reloadConfig env configFile rls w).1 with
            | some err => [Event.log "error" [.str "msg", .str "Error reloading config",
                .str "err", .err err]]
            | none => []) := by
  rcases hr : reloadConfig env configFile rls w with ⟨err, w1, tr⟩
  cases err <;>
    simp [reloadActor.onReloadCh, reloadActor.call, hr, didEvents_append, didEvents_did,
      didEvents]

theorem map_range_succ {β : Type} (f : Nat → β) (k : Nat) :
    (List.range (k + 1)).map f = f 0 :: (List.range k).map (fun i => f (i + 1)) := by
  rw [List.range_succ_eq_map, List.map_cons, List.map_map]
  rfl

/-- What the run function of the reload actor does, in terms of
`reloadConfig`: the calls are made one after the other, each on the world
the one before left. -/
theorem run_calls {σ : Type} (env : Env σ) (configFile : String) (rls : List (reloader σ))
    (ms : List Received) (w : σ) :
    (reloadActor.run env configFile rls ms w).world
      = reloadActor.worldAfter env configFile rls (handled ms).length w ∧
    reloadResults (reloadActor.run env configFile rls ms w).trace
      = (List.range (handled ms).length).map (fun i =>
          (reloadConfig env configFile rls
            (reloadActor.worldAfter env configFile rls i w)).1) ∧
    replies (reloadActor.run env configFile rls ms w).trace
      = (List.zip (handled ms)
          (reloadResults (reloadActor.run env configFile rls ms w).trace)).filterMap
          (fun mr => match mr.1 with
            | .request rc => some (rc, mr.2)
            | _ => none) ∧
    didEvents (reloadActor.run env configFile rls ms w).trace
      = ((List.range (handled ms).length).map (fun i =>
          (reloadConfig env configFile rls
            (reloadActor.worldAfter env configFile rls i w)).2.2
          ++ (match (reloadConfig env configFile rls
                (reloadActor.worldAfter env configFile rls i w)).1 with
              | some err => [Event.log "error" [.str "msg", .str "Error reloading config",
                  .str "err", .err err]]
              | none => []))).flatten := by
  induction ms generalizing w with
  | nil => exact ⟨rfl, rfl, rfl, rfl⟩
  | cons m ms ih =>
    cases m with
    | cancel => exact ⟨rfl, rfl, rfl, rfl⟩
    | hup =>
      obtain ⟨_, h2, h3, h4⟩ := onHup_spec env configFile rls w
      have h5 := onHup_did env configFile rls w
      obtain ⟨i1, i2, i3, i4⟩ := ih (reloadConfig env configFile rls w).2.1
      have hrun : reloadActor.run env configFile rls (Received.hup :: ms) w
          = { world := (reloadActor.run env configFile rls ms
                (reloadConfig env configFile rls w).2.1).world
              trace := [ActorEvent.received (Received.hup)] ++ (reloadActor.onHup env configFile rls w).2
                ++ (reloadActor.run env configFile rls ms
                  (reloadConfig env configFile rls w).2.1).trace
              returned := (reloadActor.run env configFile rls ms
                (reloadConfig env configFile rls w).2.1).returned } := by
        rw [run_hup, h4]
      have hres : reloadResults (reloadActor.run env configFile rls (Received.hup :: ms) w).trace
          = (reloadConfig env configFile rls w).1
            :: reloadResults (reloadActor.run env configFile rls ms
                (reloadConfig env configFile rls w).2.1).trace := by
        rw [hrun]
        show reloadResults (_ ++ _ ++ _) = _
        rw [reloadResults_append, reloadResults_append, h2]
        rfl
      refine ⟨?_, ?_, ?_, ?_⟩
      · rw [hrun]
        exact i1
      · rw [hres, i2]
        show _ = (List.range ((handled ms).length + 1)).map _
        rw [map_range_succ]
        rfl
      · rw [hres, hrun]
        show replies (_ ++ _ ++ _) = _
        rw [replies_append, replies_append, h3, i3]
        rfl
      · rw [hrun]
        show didEvents (_ ++ _ ++ _) = (List.map _ (List.range ((handled ms).length + 1))).flatten
        rw [didEvents_append, didEvents_append, h5, i4, map_range_succ]
        rfl
    | request rc =>
      obtain ⟨_, h2, h3, h4⟩ := onReloadCh_spec env configFile rls rc w
      have h5 := onReloadCh_did env configFile rls rc w
      obtain ⟨i1, i2, i3, i4⟩ := ih (reloadConfig env configFile rls w).2.1
      have hrun : reloadActor.run env configFile rls (Received.request rc :: ms) w
          = { world := (reloadActor.run env configFile rls ms
                (reloadConfig env configFile rls w).2.1).world
              trace := [ActorEvent.received (Received.request rc)] ++ (reloadActor.onReloadCh env configFile rls rc w).2
                ++ (reloadActor.run env configFile rls ms
                  (reloadConfig env configFile rls w).2.1).trace
              returned := (reloadActor.run env configFile rls ms
                (reloadConfig env configFile rls w).2.1).returned } := by
        rw [run_request, h4]
      have hres : reloadResults (reloadActor.run env configFile rls (Received.request rc :: ms) w).trace
          = (reloadConfig env configFile rls w).1
            :: reloadResults (reloadActor.run env configFile rls ms
                (reloadConfig env configFile rls w).2.1).trace := by
        rw [hrun]
        show reloadResults (_ ++ _ ++ _) = _
        rw [reloadResults_append, reloadResults_append, h2]
        rfl
      refine ⟨?_, ?_, ?_, ?_⟩
      · rw [hrun]
        exact i1
      · rw [hres, i2]
        show _ = (List.range ((handled ms).length + 1)).map _
        rw [map_range_succ]
        rfl
      · rw [hres, hrun]
        show replies (_ ++ _ ++ _) = _
        rw [replies_append, replies_append, h3, i3]
        rfl
      · rw [hrun]
        show didEvents (_ ++ _ ++ _) = (List.map _ (List.range ((handled ms).length + 1))).flatten
        rw [didEvents_append, didEvents_append, h5, i4, map_range_succ]
        rfl


theorem receipts_append (a b : List ActorEvent) :
    receipts (a ++ b) = receipts a ++ receipts b := by
  induction a with
  | nil => rfl
  | cons e es ih => cases e <;> simp [receipts, ih]

theorem receipts_did (tr : List Event) : receipts (tr.map ActorEvent.did) = [] := by
  induction tr with
  | nil => rfl
  | cons e es ih => simpa [receipts] using ih

theorem onHup_receipts {σ : Type} (env : Env σ) (configFile : String)
    (rls : List (reloader σ)) (w : σ) :
    receipts (reloadActor.onHup env configFile rls w).2 = [] := by
  rcases hr : reloadConfig env configFile rls w with ⟨err, w1, tr⟩
  cases err <;>
    simp [reloadActor.onHup, reloadActor.call, hr, receipts_append, receipts_did, receipts]

theorem onReloadCh_receipts {σ : Type} (env : Env σ) (configFile : String)
    (rls : List (reloader σ)) (rc : Nat) (w : σ) :
    receipts (reloadActor.onReloadCh env configFile rls rc w).2 = [] := by
  rcases hr : reloadConfig env configFile rls w with ⟨err, w1, tr⟩
  cases err <;>
    simp [reloadActor.onReloadCh, reloadActor.call, hr, receipts_append, receipts_did,
      receipts]

theorem run_receipts {σ : Type} (env : Env σ) (configFile : String) (rls : List (reloader σ))
    (ms : List Received) (w : σ) :
    receipts (reloadActor.run env configFile rls ms w).trace = consumed ms ∧
    (reloadActor.run env configFile rls ms w).returned = (consumed ms).contains .cancel := by
  induction ms generalizing w with
  | nil => exact ⟨rfl, rfl⟩
  | cons m ms ih =>
    cases m with
    | cancel => exact ⟨rfl, rfl⟩
    | hup =>
      obtain ⟨i1, i2⟩ := ih (reloadActor.onHup env configFile rls w).1
      rw [run_hup]
      refine ⟨?_, ?_⟩
      · show receipts (_ ++ _ ++ _) = _
        rw [receipts_append, receipts_append, onHup_receipts, i1]
        rfl
      · show (reloadActor.run env configFile rls ms _).returned = _
        rw [i2]
        simp [consumed]
    | request rc =>
      obtain ⟨i1, i2⟩ := ih (reloadActor.onReloadCh env configFile rls rc w).1
      rw [run_request]
      refine ⟨?_, ?_⟩
      · show receipts (_ ++ _ ++ _) = _
        rw [receipts_append, receipts_append, onReloadCh_receipts, i1]
        rfl
      · show (reloadActor.run env configFile rls ms _).returned = _
        rw [i2]
        simp [consumed]

/-- C12: the reload actor handles what its `select` receives one event at a
time. Whatever the sequence of receipts, its trace follows the rule of
`ListenerPhase.next`: a call of `reloadConfig` begins only after an event was
received and no other call is in flight, no event is received and no call
begins before the call in flight has ended and, for a request, the result of
that call was sent on the response channel of that request; reloaders run
only inside such a call. There is one call of `reloadConfig` for each event
handled and one reply for each request handled, in the order of receipt. The
call for the i-th event handled is `reloadConfig` on the configuration file
and the reloaders of the actor, run on the world the i calls before it left:
its result is the result of that run, what is done during it is what that run
does (followed by the error line of the actor when it fails), the reply to a
request carries the result of the call made for that request, and the world
the actor leaves is the world after all these calls. The events it receives
are the ones offered, in order, up to the first `cancel`, on which its run
function returns. A signal received after a request is handled on the world
the reload for the request left, after the reply to the request. -/
theorem reloadActor_one_reload_at_a_time {σ : Type} (env : Env σ) (configFile : String)
    (rls : List (reloader σ)) (ms : List Received) (w : σ) :
    ListenerPhase.idle.scan (reloadActor.run env configFile rls ms w).trace
      = some (if (reloadActor.run env configFile rls ms w).returned then .stopped else .idle) ∧
    (reloadResults (reloadActor.run env configFile rls ms w).trace).length
      = (handled ms).length ∧
    (replies (reloadActor.run env configFile rls ms w).trace).map Prod.fst
      = requestChannels (handled ms) ∧
    (∀ rc : Nat,
      (reloadActor.run env configFile rls [.request rc, .hup] w).world
        = (reloadConfig env configFile rls (reloadConfig env configFile rls w).2.1).2.1 ∧
      replies (reloadActor.run env configFile rls [.request rc, .hup] w).trace
        = [(rc, (reloadConfig env configFile rls w).1)] ∧
      reloadResults (reloadActor.run env configFile rls [.request rc, .hup] w).trace
        = [(reloadConfig env configFile rls w).1,
           (reloadConfig env configFile rls (reloadConfig env configFile rls w).2.1).1]) ∧
    (reloadActor.run env configFile rls ms w).world
      = reloadActor.worldAfter env configFile rls (handled ms).length w ∧
    reloadResults (reloadActor.run env configFile rls ms w).trace
      = (List.range (handled ms).length).map (fun i =>
          (reloadConfig env configFile rls
            (reloadActor.worldAfter env configFile rls i w)).1) ∧
    replies (reloadActor.run env configFile rls ms w).trace
      = (List.zip (handled ms)
          (reloadResults (reloadActor.run env configFile rls ms w).trace)).filterMap
          (fun mr => match mr.1 with
            | .request rc => some (rc, mr.2)
            | _ => none) ∧
    didEvents (reloadActor.run env configFile rls ms w).trace
      = ((List.range (handled ms).length).map (fun i =>
          (reloadConfig env configFile rls
            (reloadActor.worldAfter env configFile rls i w)).2.2
          ++ (match (reloadConfig env configFile rls
                (reloadActor.worldAfter env configFile rls i w)).1 with
              | some err => [Event.log "error" [.str "msg", .str "Error reloading config",
                  .str "err", .err err]]
              | none => []))).flatten ∧
    receipts (reloadActor.run env configFile rls ms w).trace = consumed ms ∧
    (reloadActor.run env configFile rls ms w).returned = (consumed ms).contains .cancel := by
  obtain ⟨h1, h2, h3⟩ := run_spec env configFile rls ms w
  obtain ⟨c1, c2, c3, c4⟩ := run_calls env configFile rls ms w
  refine ⟨h1, h2, h3, fun rc => ?_, c1, c2, c3, c4, run_receipts env configFile rls ms w⟩
  obtain ⟨_, a2, a3, a4⟩ := onReloadCh_spec env configFile rls rc w
  obtain ⟨_, b2, b3, b4⟩ := onHup_spec env configFile rls
    (reloadActor.onReloadCh env configFile rls rc w).1
  rw [run_request, run_hup, run_nil]
  refine ⟨?_, ?_, ?_⟩
  · show (reloadActor.onHup env configFile rls
      (reloadActor.onReloadCh env configFile rls rc w).1).1 = _
    rw [b4, a4]
  · show replies (_ ++ _ ++ (_ ++ _ ++ [])) = _
    rw [replies_append, replies_append, replies_append, replies_append, a3, b3]
    rfl
  · show reloadResults (_ ++ _ ++ (_ ++ _ ++ [])) = _
    rw [reloadResults_append, reloadResults_append, reloadResults_append,
      reloadResults_append, a2, b2, a4]
    rfl

/-! ## The supervisor -/

namespace run

theorem inv_init (all : Bool) (n : Nat) : Inv all n (State.init n) where
  statuses_length := by simp [State.init]
  interrupts_length := by simp [State.init]
  count := by
    simp only [State.init, Phase.taken, List.length_nil, Nat.add_zero]
    rw [List.countP_eq_zero]
    intro st hst
    rw [List.eq_of_mem_replicate hst]
    simp [Status.isReported]
  interrupts := by
    intro j hj
    simp [State.init, Phase.interruptsOf, hj]
  bounds := trivial

theorem getElem?_eq_some_lt {α : Type} {l : List α} {i : Nat} {a : α} (h : l[i]? = some a) :
    ∃ hi : i < l.length, l[i] = a := by
  rcases List.getElem?_eq_some.mp h with ⟨hi, ha⟩
  exact ⟨hi, ha⟩

theorem inv_actorReturns {all : Bool} {n : Nat} {s s1 : State} (i : Nat) (err : Option Error)
    (hinv : Inv all n s) (h : s.actorReturns i err = some s1) : Inv all n s1 := by
  unfold State.actorReturns at h
  split at h
  · cases h
  · split at h
    next hst =>
      cases h
      obtain ⟨hi, hget⟩ := getElem?_eq_some_lt hst
      exact
        { statuses_length := by simpa using hinv.statuses_length
          interrupts_length := hinv.interrupts_length
          count := by
            have := hinv.count
            simp only [List.countP_set _ _ _ _ hi, hget, Status.isReported]
            simpa using this
          interrupts := hinv.interrupts
          bounds := hinv.bounds }
    next => cases h

theorem inv_actorReports {all : Bool} {n : Nat} {s s1 : State} (i : Nat)
    (hinv : Inv all n s) (h : s.actorReports i = some s1) : Inv all n s1 := by
  unfold State.actorReports at h
  split at h
  next e hst =>
    split at h
    next hroom =>
      cases h
      obtain ⟨hi, hget⟩ := getElem?_eq_some_lt hst
      exact
        { statuses_length := by simpa using hinv.statuses_length
          interrupts_length := hinv.interrupts_length
          count := by
            have := hinv.count
            simp only [List.countP_set _ _ _ _ hi, hget, Status.isReported,
              List.length_append, List.length_cons, List.length_nil]
            simp only [Bool.false_eq_true, if_false, if_true, Nat.sub_zero]
            omega
          interrupts := hinv.interrupts
          bounds := hinv.bounds }
    next => cases h
  next => cases h

theorem inv_supervisor {all : Bool} {n : Nat} {s s1 : State}
    (hinv : Inv all n s) (h : s.supervisor all = some s1) : Inv all n s1 := by
  obtain ⟨hlen, hilen, hcount, hints, hbounds⟩ := hinv
  rcases s with ⟨statuses, interrupts, errors, phase⟩
  simp only at hlen hilen hcount hints hbounds
  cases phase with
  | start =>
    simp only [State.supervisor] at h
    split at h
    next hz =>
      cases h
      refine ⟨hlen, hilen, ?_, ?_, ?_⟩
      · simpa [Phase.taken] using hcount
      · intro j hj
        omega
      · simp only [Phase.inBounds]
        omega
    next hz =>
      cases h
      refine ⟨hlen, hilen, ?_, ?_, ?_⟩
      · simpa [Phase.taken] using hcount
      · intro j hj
        simpa [Phase.interruptsOf] using hints j hj
      · simp only [Phase.inBounds]
        omega
  | empty => simp [State.supervisor] at h
  | waitFirst =>
    simp only [State.supervisor] at h
    cases errors with
    | nil => cases h
    | cons e rest =>
      cases h
      refine ⟨hlen, hilen, ?_, ?_, ?_⟩
      · simp only [Phase.taken, List.length_cons] at hcount ⊢
        omega
      · intro j hj
        simpa [Phase.interruptsOf] using hints j hj
      · simp only [Phase.inBounds] at hbounds ⊢
        omega
  | interrupting first e k =>
    simp only [State.supervisor] at h
    simp only [Phase.inBounds] at hbounds
    split at h
    next hk =>
      rw [hlen] at hk
      split at h
      next hskip =>
        cases h
        refine ⟨hlen, hilen, ?_, ?_, ?_⟩
        · simpa [Phase.taken] using hcount
        · intro j hj
          have hold := hints j hj
          simp only [Phase.interruptsOf] at hold ⊢
          rw [hold]
          by_cases hjk : j = k
          · subst hjk
            simp [hskip]
          · by_cases hlt : j < k
            · have hlt1 : j < k + 1 := by omega
              simp [hlt, hlt1]
            · have hlt1 : ¬ j < k + 1 := by omega
              simp [hlt, hlt1]
        · simp only [Phase.inBounds]
          omega
      next hskip =>
        cases h
        refine ⟨hlen, by simpa using hilen, ?_, ?_, ?_⟩
        · simpa [Phase.taken] using hcount
        · intro j hj
          have hold := hints j hj
          have holdk := hints k hk
          simp only [Phase.interruptsOf, Nat.lt_irrefl, false_and, if_false] at hold holdk
          simp only [Phase.interruptsOf, List.getElem?_set, hilen, hk, if_true,
            List.getD_eq_getElem?_getD, holdk, Option.getD_some, List.nil_append]
          by_cases hjk : k = j
          · subst hjk
            simp [hskip]
          · simp only [hjk, if_false, hold]
            by_cases hlt : j < k
            · have hlt1 : j < k + 1 := by omega
              simp [hlt, hlt1]
            · have hlt1 : ¬ j < k + 1 := by omega
              simp [hlt, hlt1]
        · simp only [Phase.inBounds]
          omega
    next hk =>
      cases h
      rw [hlen] at hk
      refine ⟨hlen, hilen, ?_, ?_, ?_⟩
      · simpa [Phase.taken] using hcount
      · intro j hj
        have hold := hints j hj
        have hjk : j < k := by omega
        simp only [Phase.interruptsOf, hjk, true_and] at hold ⊢
        rw [hold]
        by_cases hf : j = first ∧ all = false <;> simp [hf]
      · simp only [Phase.inBounds]
        omega
  | draining first e i =>
    simp only [State.supervisor] at h
    simp only [Phase.inBounds] at hbounds
    split at h
    next hi =>
      rw [hlen] at hi
      cases errors with
      | nil => cases h
      | cons x rest =>
        cases h
        refine ⟨hlen, hilen, ?_, ?_, ?_⟩
        · simp only [Phase.taken, List.length_cons] at hcount ⊢
          omega
        · intro j hj
          simpa [Phase.interruptsOf] using hints j hj
        · simp only [Phase.inBounds]
          omega
    next hi =>
      cases h
      rw [hlen] at hi
      refine ⟨hlen, hilen, ?_, ?_, trivial⟩
      · simp only [Phase.taken] at hcount ⊢
        have : i = n := by omega
        omega
      · intro j hj
        simpa [Phase.interruptsOf] using hints j hj
  | done first e => simp [State.supervisor] at h

theorem inv_step {all : Bool} {n : Nat} {s s1 : State} (m : Move)
    (hinv : Inv all n s) (h : s.step all m = some s1) : Inv all n s1 := by
  cases m with
  | returns i err => exact inv_actorReturns i err hinv h
  | reports i => exact inv_actorReports i hinv h
  | supervisor => exact inv_supervisor hinv h

theorem inv_exec {all : Bool} {n : Nat} (ms : List Move) {s s1 : State}
    (hinv : Inv all n s) (h : s.exec all ms = some s1) : Inv all n s1 := by
  induction ms generalizing s with
  | nil =>
    simp only [State.exec, Option.some.injEq] at h
    exact h ▸ hinv
  | cons m ms ih =>
    simp only [State.exec] at h
    cases hs : s.step all m with
    | none => simp [hs] at h
    | some s2 =>
      rw [hs] at h
      exact ih (inv_step m hinv hs) h

theorem exec_interrupting {all : Bool} {n : Nat} (first : Nat) (err : Option Error) (d : Nat) :
    ∀ (k : Nat) (s : State), n - k = d → Inv all n s → s.phase = .interrupting first err k →
      ∃ s1, s.exec all (List.replicate (d + 1) Move.supervisor) = some s1 ∧
        s1.phase = .draining first err 1 := by
  induction d with
  | zero =>
    intro k s hd hinv hph
    have hb := hinv.bounds
    rw [hph] at hb
    simp only [Phase.inBounds] at hb
    have hk : ¬ k < s.statuses.length := by
      rw [hinv.statuses_length]
      omega
    refine ⟨{ s with phase := .draining first err 1 }, ?_, rfl⟩
    simp [State.exec, State.step, State.supervisor, hph, hk]
  | succ d ih =>
    intro k s hd hinv hph
    have hk : k < s.statuses.length := by
      rw [hinv.statuses_length]
      omega
    cases hs : s.supervisor all with
    | none =>
      simp only [State.supervisor, hph, hk, if_true] at hs
      split at hs <;> cases hs
    | some s2 =>
      have hph2 : s2.phase = .interrupting first err (k + 1) := by
        simp only [State.supervisor, hph, hk, if_true] at hs
        split at hs <;> (cases hs; rfl)
      obtain ⟨s1, h1, h2⟩ := ih (k + 1) s2 (by omega) (inv_supervisor hinv hs) hph2
      refine ⟨s1, ?_, h2⟩
      rw [List.replicate_succ]
      simp only [State.exec, State.step, hs]
      exact h1

theorem tagged_init (n : Nat) : Tagged (State.init n) := by
  intro p hp
  simp [State.init, Phase.first] at hp

theorem tagged_step {all : Bool} {s s1 : State} (m : Move)
    (ht : Tagged s) (h : s.step all m = some s1) : Tagged s1 := by
  cases m with
  | returns i err =>
    simp only [State.step, State.actorReturns] at h
    split at h
    · cases h
    · split at h
      next hst =>
        cases h
        intro p hp
        have hold := ht p hp
        have hne : i ≠ p.1 := by
          intro hip
          rw [← hip, hst] at hold
          cases hold
        simpa [List.getElem?_set, hne] using hold
      next => cases h
  | reports i =>
    simp only [State.step, State.actorReports] at h
    split at h
    next e hst =>
      split at h
      next hroom =>
        cases h
        obtain ⟨hi, _⟩ := getElem?_eq_some_lt hst
        intro p hp
        simp only [List.mem_append, List.mem_singleton] at hp
        rcases hp with (hp | hp) | hp
        · have hold := ht p (Or.inl hp)
          have hne : i ≠ p.1 := by
            intro hip
            rw [← hip, hst] at hold
            cases hold
          simpa [List.getElem?_set, hne] using hold
        · subst hp
          simp [List.getElem?_set, hi]
        · have hold := ht p (Or.inr hp)
          have hne : i ≠ p.1 := by
            intro hip
            rw [← hip, hst] at hold
            cases hold
          simpa [List.getElem?_set, hne] using hold
      next => cases h
    next => cases h
  | supervisor =>
    rcases s with ⟨statuses, interrupts, errors, phase⟩
    simp only [State.step] at h
    cases phase with
    | start =>
      simp only [State.supervisor] at h
      split at h <;>
      · cases h
        intro p hp
        exact ht p (by simpa [Phase.first] using hp)
    | empty => simp [State.supervisor] at h
    | waitFirst =>
      simp only [State.supervisor] at h
      cases errors with
      | nil => cases h
      | cons e rest =>
        cases h
        intro p hp
        rcases hp with hp | hp
        · exact ht p (Or.inl (List.mem_cons_of_mem _ hp))
        · simp only [Phase.first, Option.some.injEq] at hp
          exact ht p (Or.inl (by simp [← hp]))
    | interrupting first e k =>
      simp only [State.supervisor] at h
      split at h
      · split at h <;>
        · cases h
          intro p hp
          exact ht p (by simpa [Phase.first] using hp)
      · cases h
        intro p hp
        exact ht p (by simpa [Phase.first] using hp)
    | draining first e i =>
      simp only [State.supervisor] at h
      split at h
      · cases errors with
        | nil => cases h
        | cons x rest =>
          cases h
          intro p hp
          rcases hp with hp | hp
          · exact ht p (Or.inl (List.mem_cons_of_mem _ hp))
          · exact ht p (Or.inr (by simpa [Phase.first] using hp))
      · cases h
        intro p hp
        exact ht p (by simpa [Phase.first] using hp)
    | done first e => simp [State.supervisor] at h

theorem tagged_exec {all : Bool} (ms : List Move) {s s1 : State}
    (ht : Tagged s) (h : s.exec all ms = some s1) : Tagged s1 := by
  induction ms generalizing s with
  | nil =>
    simp only [State.exec, Option.some.injEq] at h
    exact h ▸ ht
  | cons m ms ih =>
    simp only [State.exec] at h
    cases hs : s.step all m with
    | none => simp [hs] at h
    | some s2 =>
      rw [hs] at h
      exact ih (tagged_step m ht hs) h

/-- C11: in every state a supervisor of n actors and its actors reach, under
every interleaving, each actor has received at most one `interrupt` call.
When `Run` has returned, the run function of every actor has returned and
handed over its result, and every actor other than the first to return has
received exactly one `interrupt` call, with the result of the first as
argument; the first has received one as well when the supervisor interrupts
all actors, as `run.Group` does. Once a first result is at the coordination
point, the steps of `Run` alone deliver these calls. -/
theorem Run_interrupts_every_other_actor_once (all : Bool) (n : Nat) (ms : List Move)
    (s : State) (h : (State.init n).exec all ms = some s) :
    (∀ j, j < n → ∃ l, s.interrupts[j]? = some l ∧ l.length ≤ 1) ∧
    (∀ first err, s.phase = .done first err →
      s.statuses[first]? = some (.reported err) ∧
      s.interrupts[first]? = some (if all = true then [err] else []) ∧
      ∀ j, j < n →
        (j ≠ first → s.interrupts[j]? = some [err]) ∧
        ∃ e, s.statuses[j]? = some (.reported e)) ∧
    (∀ first err rest, s.phase = .waitFirst → s.errors = (first, err) :: rest →
      ∃ s1, s.exec all (List.replicate (n + 2) Move.supervisor) = some s1 ∧
        s1.phase = .draining first err 1 ∧
        ∀ j, j < n → j ≠ first → s1.interrupts[j]? = some [err]) := by
  have hinv : Inv all n s := inv_exec ms (inv_init all n) h
  have htag : Tagged s := tagged_exec ms (tagged_init n) h
  refine ⟨?_, ?_, ?_⟩
  · intro j hj
    refine ⟨_, hinv.interrupts j hj, ?_⟩
    cases s.phase with
    | start => simp [Phase.interruptsOf]
    | empty => simp [Phase.interruptsOf]
    | waitFirst => simp [Phase.interruptsOf]
    | interrupting f e k =>
      simp only [Phase.interruptsOf]
      split <;> simp
    | draining f e i =>
      simp only [Phase.interruptsOf]
      split <;> simp
    | done f e =>
      simp only [Phase.interruptsOf]
      split <;> simp
  · intro first err hph
    have hfirst : s.statuses[first]? = some (.reported err) :=
      htag (first, err) (Or.inr (by rw [hph]; rfl))
    obtain ⟨hfn, _⟩ := getElem?_eq_some_lt hfirst
    rw [hinv.statuses_length] at hfn
    have hc := hinv.count
    rw [hph] at hc
    simp only [Phase.taken] at hc
    have hle : s.statuses.countP Status.isReported ≤ s.statuses.length := List.countP_le_length _
    have hall : s.statuses.countP Status.isReported = s.statuses.length := by
      rw [hinv.statuses_length] at hle ⊢
      omega
    refine ⟨hfirst, ?_, ?_⟩
    · have hi := hinv.interrupts first hfn
      rw [hph] at hi
      rw [hi]
      cases all <;> simp [Phase.interruptsOf]
    · intro j hj
      refine ⟨?_, ?_⟩
      · intro hne
        have hi := hinv.interrupts j hj
        rw [hph] at hi
        simpa [Phase.interruptsOf, hne] using hi
      · have hj1 : j < s.statuses.length := by rw [hinv.statuses_length]; exact hj
        have hrep := (List.countP_eq_length.mp hall) s.statuses[j] (List.getElem_mem _)
        rw [List.getElem?_eq_getElem hj1]
        cases hst : s.statuses[j] with
        | running => simp [hst, Status.isReported] at hrep
        | returned e => simp [hst, Status.isReported] at hrep
        | reported e => exact ⟨e, rfl⟩
  · intro first err rest hph herr
    have hstep : s.supervisor all
        = some { s with errors := rest, phase := .interrupting first err 0 } := by
      simp [State.supervisor, hph, herr]
    obtain ⟨s1, h1, h2⟩ :=
      exec_interrupting first err (n - 0) 0 _ rfl (inv_supervisor hinv hstep) rfl
    have hexec : s.exec all (List.replicate (n + 2) Move.supervisor) = some s1 := by
      rw [List.replicate_succ]
      simp only [State.exec, State.step, hstep]
      exact h1
    refine ⟨s1, hexec, h2, ?_⟩
    intro j hj hne
    have hinv1 : Inv all n s1 := inv_exec _ hinv hexec
    have := hinv1.interrupts j hj
    rw [h2] at this
    simpa [Phase.interruptsOf, hne] using this

/-- Two actors under a supervisor that interrupts all actors: the second
returns an error, both are interrupted once with that error, the first then
returns, and `Run` returns the error. -/
theorem Run_interrupts_every_other_actor_once_witness :
    (State.init 2).exec true
        [.supervisor, .returns 1 (some "listen: address in use"), .reports 1, .supervisor,
          .supervisor, .supervisor, .supervisor, .returns 0 none, .reports 0, .supervisor,
          .supervisor]
      = some { statuses := [.reported none, .reported (some "listen: address in use")]
               interrupts := [[some "listen: address in use"], [some "listen: address in use"]]
               errors := []
               phase := .done 1 (some "listen: address in use") } ∧
    ([[some "listen: address in use"], [some "listen: address in use"]] :
      List (List (Option Error)))[0]? = some [some "listen: address in use"] :=
  ⟨rfl, (((Run_interrupts_every_other_actor_once true 2
    [.supervisor, .returns 1 (some "listen: address in use"), .reports 1, .supervisor,
      .supervisor, .supervisor, .supervisor, .returns 0 none, .reports 0, .supervisor,
      .supervisor]
    { statuses := [.reported none, .reported (some "listen: address in use")]
      interrupts := [[some "listen: address in use"], [some "listen: address in use"]]
      errors := []
      phase := .done 1 (some "listen: address in use") } rfl).2.1
    1 (some "listen: address in use") rfl).2.2 0 (by decide)).1 (by decide)⟩

end run

end RuleEvaluator
